import Mathlib

/-!
Verification development for the Saha language core pipeline.

The Rust sources under saha/lib, saha/parser are embedded shallowly:

* Rust `HashMap<K, V>` becomes an association list `List (K × V)` whose
  iteration order is the list order (a HashMap's iteration order is
  arbitrary; the list order models one such order, and all single-map
  accesses such as lookup/insert/remove are order-independent).
* Machine floats (`f64`) are carried opaquely as their 64-bit patterns;
  no claim computes with them.
* Fallible Rust code returns `Except`/`Outcome`; a Rust `panic!` or
  `unwrap()` on `None` is a distinguished `Outcome.panic` result.
* Global mutable state (the process-wide symbol table) is passed
  explicitly; functions that mutate it return the updated table.
* Recursive parser loops take an explicit fuel argument; `Outcome.fuelOut`
  marks fuel exhaustion and never corresponds to a Rust behaviour, so any
  theorem about a `.ok`/`.err`/`.panic` outcome is about the Rust code.
-/

/-- FilePosition: a file, line, column triple attached to tokens, AST nodes
and errors (saha/lib source/files). -/
structure FilePosition where
  file : String
  line : Nat
  column : Nat
  deriving DecidableEq

/-- FilePosition.unknown: the sentinel position used for synthetic positions
and in the parser tests. -/
def FilePosition.unknown : FilePosition := ⟨"/unknown", 0, 0⟩

/-- F64 models a Rust `f64` opaquely as its 64-bit pattern: floating point
values are only carried through by the embedded code, never computed with. -/
structure F64 where
  bits : Nat
  deriving DecidableEq

/-- InstRef: in Rust a 16-byte UUID-derived opaque instance handle; modelled
as an opaque natural number identifier. -/
abbrev InstRef := Nat

/-- SahaType from saha/lib types: primitive tags, the opaque object handle,
named (possibly generic) class types and single-letter type parameters. -/
inductive SahaType where
  | str
  | int
  | float
  | bool
  | void
  | obj
  | name (n : String) (type_params : List SahaType)
  | typeParam (c : Char)

mutual

def SahaType.beq : SahaType → SahaType → Bool
  | .str, .str => true
  | .int, .int => true
  | .float, .float => true
  | .bool, .bool => true
  | .void, .void => true
  | .obj, .obj => true
  | .name n as, .name m bs => n == m && SahaType.beqList as bs
  | .typeParam a, .typeParam b => a == b
  | _, _ => false

def SahaType.beqList : List SahaType → List SahaType → Bool
  | [], [] => true
  | a :: as, b :: bs => SahaType.beq a b && SahaType.beqList as bs
  | _, _ => false

end

mutual

theorem SahaType.beq_iff : ∀ a b : SahaType, SahaType.beq a b = true ↔ a = b
  | .str, b => by cases b <;> simp [SahaType.beq]
  | .int, b => by cases b <;> simp [SahaType.beq]
  | .float, b => by cases b <;> simp [SahaType.beq]
  | .bool, b => by cases b <;> simp [SahaType.beq]
  | .void, b => by cases b <;> simp [SahaType.beq]
  | .obj, b => by cases b <;> simp [SahaType.beq]
  | .name n as, b => by
      cases b <;> simp [SahaType.beq]
      intro _
      exact SahaType.beqList_iff as _
  | .typeParam a, b => by cases b <;> simp [SahaType.beq]

theorem SahaType.beqList_iff :
    ∀ as bs : List SahaType, SahaType.beqList as bs = true ↔ as = bs
  | [], bs => by cases bs <;> simp [SahaType.beqList]
  | a :: as, bs => by
      cases bs with
      | nil => simp [SahaType.beqList]
      | cons b bs =>
          simp [SahaType.beqList, SahaType.beq_iff a b, SahaType.beqList_iff as bs]

end

instance : DecidableEq SahaType := fun a b =>
  decidable_of_iff (SahaType.beq a b = true) (SahaType.beq_iff a b)

/-- Human readable type name for diagnostics. Modelled from the spec: a
human-readable form of types exists for diagnostics (the Rust
`to_readable_string` lives in a saha/lib module that is not part of the
staged sources); no claim depends on its exact output. -/
def SahaType.to_readable_string : SahaType → String
  | .str => "str"
  | .int => "int"
  | .float => "float"
  | .bool => "bool"
  | .void => "void"
  | .obj => "object"
  | .name n _ => n
  | .typeParam c => String.mk [c]

mutual

/-- Debug formatting of a type, as produced by the derived Rust `Debug`
instance which the runtime error messages interpolate with `{:?}`. -/
def SahaType.debugStr : SahaType → String
  | .str => "Str"
  | .int => "Int"
  | .float => "Float"
  | .bool => "Bool"
  | .void => "Void"
  | .obj => "Obj"
  | .name n args => "Name(\"" ++ n ++ "\", [" ++ SahaType.debugStrList args ++ "])"
  | .typeParam c => "TypeParam(" ++ String.mk [c] ++ ")"

def SahaType.debugStrList : List SahaType → String
  | [] => ""
  | [t] => SahaType.debugStr t
  | t :: rest => SahaType.debugStr t ++ ", " ++ SahaType.debugStrList rest

end

/-- Value: the Saha tagged value. Modelled from the spec: a tagged union
with a kind and at most one meaningful payload (the Rust struct lives in
saha/lib types/mod.rs which is not among the staged sources; the spec
documents it as kind plus optional str/int/float/bool/obj payloads). -/
structure Value where
  kind : SahaType
  str : Option String
  int : Option Int
  float : Option F64
  bool : Option Bool
  obj : Option InstRef
  deriving DecidableEq

/-- Value.void: the uninitialized/absent value (Rust `Value::void()`). -/
def Value.void : Value := ⟨SahaType.void, none, none, none, none, none⟩

/-- Value.ofStr models Rust `Value::str(s)`. -/
def Value.ofStr (s : String) : Value := ⟨SahaType.str, some s, none, none, none, none⟩

/-- Value.ofInt models Rust `Value::int(i)`. -/
def Value.ofInt (i : Int) : Value := ⟨SahaType.int, none, some i, none, none, none⟩

/-- Value.ofFloat models Rust `Value::float(f)`. -/
def Value.ofFloat (f : F64) : Value := ⟨SahaType.float, none, none, some f, none, none⟩

/-- Value.ofBool models Rust `Value::bool(b)`. -/
def Value.ofBool (b : Bool) : Value := ⟨SahaType.bool, none, none, none, some b, none⟩

/-- Value.ofObj models Rust `Value::obj(instref)`. -/
def Value.ofObj (r : InstRef) : Value := ⟨SahaType.obj, none, none, none, none, some r⟩

/-- RuntimeError: message plus optional source position (the error name is
the constant "RuntimeError"). -/
structure RuntimeError where
  message : String
  pos : Option FilePosition
  deriving DecidableEq

/-- ParseError: message plus optional source position (the error name is
the constant "ParseError"). -/
structure ParseError where
  message : String
  pos : Option FilePosition
  deriving DecidableEq

/-- HMap is the association-list model of a Rust HashMap. Keys are unique
in every map the embedded code builds; the list order models the map's
(arbitrary) iteration order. -/
abbrev HMap (κ : Type) (α : Type) := List (κ × α)

/-- Lookup of a key, modelling `HashMap::get`. -/
def alookup {κ α : Type} [DecidableEq κ] : HMap κ α → κ → Option α
  | [], _ => none
  | (k, v) :: rest, key => if k = key then some v else alookup rest key

/-- Key-presence test, modelling `HashMap::contains_key`. -/
def acontains {κ α : Type} [DecidableEq κ] (l : HMap κ α) (k : κ) : Bool :=
  (alookup l k).isSome

/-- Key removal, modelling `HashMap::remove` (the removed value is unused
by the embedded code). -/
def aremove {κ α : Type} [DecidableEq κ] : HMap κ α → κ → HMap κ α
  | [], _ => []
  | (k, v) :: rest, key => if k = key then aremove rest key else (k, v) :: aremove rest key

/-- Insert-or-replace, modelling `HashMap::insert`. -/
def ainsert {κ α : Type} [DecidableEq κ] : HMap κ α → κ → α → HMap κ α
  | [], key, v => [(key, v)]
  | (k, w) :: rest, key, v =>
    if k = key then (key, v) :: rest else (k, w) :: ainsert rest key v

/-- Key list of a map (its key set is the set of its members). -/
def akeys {κ α : Type} (l : HMap κ α) : List κ :=
  l.map Prod.fst

/-- FunctionParameter: a declared Saha parameter; a parameter without a
default has a Void-kinded default value. -/
structure FunctionParameter where
  name : String
  param_type : SahaType
  default : Value
  deriving DecidableEq

/-- Collection of Saha function parameter definitions
(`SahaFunctionParamDefs` in the source). -/
abbrev SahaFunctionParamDefs := HMap String FunctionParameter

/-- A function call argument collection: names mapped to Saha values
(`SahaFunctionArguments` in the source). -/
abbrev SahaFunctionArguments := HMap String Value

/-- Outcome of embedded fallible Rust code: success, an error value, a Rust
panic (e.g. `unwrap()` of `None`), or fuel exhaustion of the embedding. -/
inductive Outcome (ε : Type) (α : Type) where
  | ok (a : α)
  | err (e : ε)
  | panic (m : String)
  | fuelOut
  deriving DecidableEq

/-- Message of a Rust `unwrap()` panic on `None`. -/
def unwrapNoneMsg : String := "called Option::unwrap() on a None value"

/-- Argument-type mismatch test: embeds the Rust comparison
`*param_type != *arg` between a `SahaType` and a `Value`. Modelled from the
spec: the argument's type must equal the declared parameter type (the
`PartialEq<Value> for SahaType` impl is in a saha/lib module not among the
staged sources). -/
def typeMismatch (param_type : SahaType) (arg : Value) : Bool :=
  param_type ≠ arg.kind

/-- Embeds `ValidatesArgs::validate_single_param_args` for
`SahaFunctionParamDefs` (types/functions.rs lines 354-406): validation used
when the call was made with a single (possibly unnamed) argument. -/
def validate_single_param_args (params : SahaFunctionParamDefs)
    (args : SahaFunctionArguments) (call_pos : Option FilePosition) :
    Outcome RuntimeError SahaFunctionArguments :=
  let validation_args : SahaFunctionArguments :=
    if acontains args "self" then aremove args "self" else args
  match params.head? with
  | none => .panic unwrapNoneMsg
  | some (param_name, param) =>
    let param_default := param.default
    let param_type := param.param_type
    if param_default.kind = SahaType.void ∧ validation_args.isEmpty then
      .err ⟨"Invalid arguments, argument `" ++ param_name ++ "` missing", call_pos⟩
    else
      match validation_args.head? with
      | none => .panic unwrapNoneMsg
      | some (_, arg) =>
        if typeMismatch param_type arg then
          .err ⟨"Invalid argument, `" ++ param_name ++ "` is expected to be a `" ++
            param_type.to_readable_string ++ "`, found `" ++
            arg.kind.to_readable_string ++ "` instead", call_pos⟩
        else
          if acontains validation_args "" then
            match alookup validation_args "" with
            | some v => .ok (aremove (ainsert args param_name v) "")
            | none => .panic unwrapNoneMsg
          else
            .ok args

/-- Embeds the per-parameter loop of `ValidatesArgs::validate_args`
(types/functions.rs lines 415-454): iterates the declared parameters in the
map's iteration order. -/
def validate_args_each (plist : List (String × FunctionParameter))
    (args : SahaFunctionArguments) (call_pos : Option FilePosition) :
    Outcome RuntimeError SahaFunctionArguments :=
  match plist with
  | [] => .ok args
  | (name, param) :: rest =>
    if acontains args name = false ∧ param.default.kind = SahaType.void then
      .err ⟨"Invalid arguments, argument `" ++ name ++ "` missing", call_pos⟩
    else
      match alookup args name with
      | none => .panic unwrapNoneMsg
      | some arg =>
        if typeMismatch param.param_type arg then
          .err ⟨"Invalid argument, `" ++ name ++ "` is expected to be a `" ++
            param.param_type.to_readable_string ++ "`, found `" ++
            arg.kind.to_readable_string ++ "` instead", call_pos⟩
        else
          validate_args_each rest args call_pos

/-- Embeds `ValidatesArgs::validate_args` for `SahaFunctionParamDefs`
(types/functions.rs lines 408-455): a call with a single non-self argument
(or one argument besides `self`) is routed to the single-parameter path,
otherwise each declared parameter is checked in turn and the argument map
is returned unchanged. -/
def validate_args (params : SahaFunctionParamDefs)
    (args : SahaFunctionArguments) (call_pos : Option FilePosition) :
    Outcome RuntimeError SahaFunctionArguments :=
  if (args.length = 1 ∧ acontains args "self" = false) ∨
      (args.length = 2 ∧ acontains args "self" = true) then
    validate_single_param_args params args call_pos
  else
    validate_args_each params args call_pos

/-- Identifier from saha/lib ast/mod.rs: position, name, type parameters. -/
structure Identifier where
  file_position : FilePosition
  identifier : String
  type_params : List SahaType
  deriving DecidableEq

/-- AccessKind from ast/mod.rs: instance access via the arrow operator,
static access via the double colon. -/
inductive AccessKind where
  | instanceAccess
  | staticAccess
  deriving DecidableEq

/-- BinOpKind from ast/mod.rs. -/
inductive BinOpKind where
  | add | sub | mul | div | gt | gte | lt | lte | eq | neq | and | or
  deriving DecidableEq

/-- BinOp from ast/mod.rs: position, kind and associativity flag. -/
structure BinOp where
  file_position : FilePosition
  kind : BinOpKind
  is_left_assoc : Bool
  deriving DecidableEq

/-- UnaryOpKind from ast/mod.rs. -/
inductive UnaryOpKind where
  | not
  | minus
  deriving DecidableEq

/-- UnaryOp from ast/mod.rs. -/
structure UnaryOp where
  file_position : FilePosition
  kind : UnaryOpKind
  deriving DecidableEq

mutual

/-- Expression from ast/mod.rs: a file position plus an expression kind
(the Rust struct with its kind enum, flattened into two mutual types). -/
inductive Expression where
  | mk (file_position : FilePosition) (kind : ExpressionKind)

/-- ExpressionKind from ast/mod.rs, constructor for constructor. -/
inductive ExpressionKind where
  | literalValue (v : Value)
  | assignment (target : Expression) (value : Expression)
  | identPath (root : Identifier) (path : List (AccessKind × Identifier))
  | listDeclaration (elems : List Expression)
  | dictDeclaration (entries : List (Expression × Expression))
  | assignOperation (target : Expression) (value : Expression)
  | pipeOperation (lhs : Expression) (rhs : Expression)
  | binaryOperation (lhs : Expression) (op : BinOp) (rhs : Expression)
  | unaryOperation (op : UnaryOp) (e : Expression)
  | functionCall (callee : Expression) (args : Expression)
  | callableArgs (args : List Expression)
  | callableArg (arg_name : Identifier) (value : Expression)
  | objectAccess (lhs : Expression) (access : AccessKind) (rhs : Expression)
  | newInstance (class_name : Identifier) (args : Expression) (type_args : List SahaType)

end

/-- Position accessor of an expression (the Rust struct field). -/
def Expression.file_position : Expression → FilePosition
  | .mk p _ => p

/-- Kind accessor of an expression (the Rust struct field). -/
def Expression.kind : Expression → ExpressionKind
  | .mk _ k => k

mutual

/-- Statement from ast/mod.rs: a file position plus a statement kind. -/
inductive Statement where
  | mk (file_position : FilePosition) (kind : StatementKind)

/-- StatementKind from ast/mod.rs, constructor for constructor. -/
inductive StatementKind where
  | varDeclaration (ident : Identifier) (var_type : SahaType) (value : Option Expression)
  | expression (e : Expression)
  | ifStatement (cond : Expression) (then_block : Block)
      (elifs : List Statement) (else_block : Option Block)
  | loopStatement (body : Block)
  | forStatement (k : Identifier) (v : Identifier) (iterable : Expression) (body : Block)
  | returnStatement (e : Expression)
  | breakStatement
  | continueStatement

/-- Block from ast/mod.rs: a file position plus statements. -/
inductive Block where
  | mk (file_position : FilePosition) (statements : List Statement)

end

/-- Statements of a block. -/
def Block.statements : Block → List Statement
  | .mk _ s => s

/-- Ast from ast/mod.rs: a single entrypoint block. -/
structure Ast where
  entrypoint : Block

/-- Token: the tokenizer output consumed by the parsers. Modelled from the
spec: the tokenizer is an external collaborator (its token.rs is not among
the staged sources); the variant set and payloads follow the spec's token
contract and the variants the staged parser matches on. A Name token
carries an aliased name and a source name, both read by the parser. -/
inductive Token where
  | eob
  | name (pos : FilePosition) (aliasName : String) (sname : String)
  | stringValue (pos : FilePosition) (val : String)
  | integerValue (pos : FilePosition) (val : Int)
  | floatValue (pos : FilePosition) (val : F64)
  | booleanValue (pos : FilePosition) (val : Bool)
  | typeString (pos : FilePosition)
  | typeInteger (pos : FilePosition)
  | typeFloat (pos : FilePosition)
  | typeBoolean (pos : FilePosition)
  | kwVar (pos : FilePosition)
  | kwIf (pos : FilePosition)
  | kwElseif (pos : FilePosition)
  | kwElse (pos : FilePosition)
  | kwLoop (pos : FilePosition)
  | kwFor (pos : FilePosition)
  | kwIn (pos : FilePosition)
  | kwReturn (pos : FilePosition)
  | kwBreak (pos : FilePosition)
  | kwContinue (pos : FilePosition)
  | kwNew (pos : FilePosition)
  | parensOpen (pos : FilePosition)
  | parensClose (pos : FilePosition)
  | braceOpen (pos : FilePosition)
  | braceClose (pos : FilePosition)
  | curlyOpen (pos : FilePosition)
  | curlyClose (pos : FilePosition)
  | comma (pos : FilePosition)
  | endStatement (pos : FilePosition)
  | colon (pos : FilePosition)
  | singleQuote (pos : FilePosition)
  | assign (pos : FilePosition)
  | objectAccess (pos : FilePosition)
  | staticAccess (pos : FilePosition)
  | unOpNot (pos : FilePosition)
  | opAdd (pos : FilePosition)
  | opSub (pos : FilePosition)
  | opMul (pos : FilePosition)
  | opDiv (pos : FilePosition)
  | opAnd (pos : FilePosition)
  | opOr (pos : FilePosition)
  | opEq (pos : FilePosition)
  | opNeq (pos : FilePosition)
  | opLt (pos : FilePosition)
  | opLte (pos : FilePosition)
  | opGt (pos : FilePosition)
  | opGte (pos : FilePosition)
  deriving DecidableEq

/-- File position carried by a token; the end-of-buffer sentinel reports the
unknown position. -/
def Token.get_file_position : Token → FilePosition
  | .eob => FilePosition.unknown
  | .name p _ _ => p
  | .stringValue p _ => p
  | .integerValue p _ => p
  | .floatValue p _ => p
  | .booleanValue p _ => p
  | .typeString p => p
  | .typeInteger p => p
  | .typeFloat p => p
  | .typeBoolean p => p
  | .kwVar p => p
  | .kwIf p => p
  | .kwElseif p => p
  | .kwElse p => p
  | .kwLoop p => p
  | .kwFor p => p
  | .kwIn p => p
  | .kwReturn p => p
  | .kwBreak p => p
  | .kwContinue p => p
  | .kwNew p => p
  | .parensOpen p => p
  | .parensClose p => p
  | .braceOpen p => p
  | .braceClose p => p
  | .curlyOpen p => p
  | .curlyClose p => p
  | .comma p => p
  | .endStatement p => p
  | .colon p => p
  | .singleQuote p => p
  | .assign p => p
  | .objectAccess p => p
  | .staticAccess p => p
  | .unOpNot p => p
  | .opAdd p => p
  | .opSub p => p
  | .opMul p => p
  | .opDiv p => p
  | .opAnd p => p
  | .opOr p => p
  | .opEq p => p
  | .opNeq p => p
  | .opLt p => p
  | .opLte p => p
  | .opGt p => p
  | .opGte p => p

/-- Operator precedence of a token. Modelled from the spec: multiplicative
over additive over relational over equality over conjunction over
disjunction, and every non-operator token reports a negative precedence so
that the expression parser terminates. -/
def Token.get_precedence : Token → Int
  | .opMul _ => 60
  | .opDiv _ => 60
  | .opAdd _ => 50
  | .opSub _ => 50
  | .opLt _ => 40
  | .opLte _ => 40
  | .opGt _ => 40
  | .opGte _ => 40
  | .opEq _ => 30
  | .opNeq _ => 30
  | .opAnd _ => 20
  | .opOr _ => 10
  | _ => -1

/-- TokTy is a token's discriminant: the parser compares consumed tokens
against expected variant names via `std::mem::discriminant`. -/
inductive TokTy where
  | eob | nameTok | stringval | integerval | floatval | booleanval
  | typestring | typeinteger | typefloat | typeboolean
  | kwvar | kwif | kwelseif | kwelse | kwloop | kwfor | kwin
  | kwreturn | kwbreak | kwcontinue | kwnew
  | parensopen | parensclose | braceopen | braceclose | curlyopen | curlyclose
  | commaTok | endstatement | colonTok | singlequote | assignTok
  | objectaccess | staticaccess | unopnot
  | opadd | opsub | opmul | opdiv | opand | opor
  | opeq | opneq | oplt | oplte | opgt | opgte
  deriving DecidableEq

/-- Discriminant of a token. -/
def Token.typ : Token → TokTy
  | .eob => .eob
  | .name .. => .nameTok
  | .stringValue .. => .stringval
  | .integerValue .. => .integerval
  | .floatValue .. => .floatval
  | .booleanValue .. => .booleanval
  | .typeString _ => .typestring
  | .typeInteger _ => .typeinteger
  | .typeFloat _ => .typefloat
  | .typeBoolean _ => .typeboolean
  | .kwVar _ => .kwvar
  | .kwIf _ => .kwif
  | .kwElseif _ => .kwelseif
  | .kwElse _ => .kwelse
  | .kwLoop _ => .kwloop
  | .kwFor _ => .kwfor
  | .kwIn _ => .kwin
  | .kwReturn _ => .kwreturn
  | .kwBreak _ => .kwbreak
  | .kwContinue _ => .kwcontinue
  | .kwNew _ => .kwnew
  | .parensOpen _ => .parensopen
  | .parensClose _ => .parensclose
  | .braceOpen _ => .braceopen
  | .braceClose _ => .braceclose
  | .curlyOpen _ => .curlyopen
  | .curlyClose _ => .curlyclose
  | .comma _ => .commaTok
  | .endStatement _ => .endstatement
  | .colon _ => .colonTok
  | .singleQuote _ => .singlequote
  | .assign _ => .assignTok
  | .objectAccess _ => .objectaccess
  | .staticAccess _ => .staticaccess
  | .unOpNot _ => .unopnot
  | .opAdd _ => .opadd
  | .opSub _ => .opsub
  | .opMul _ => .opmul
  | .opDiv _ => .opdiv
  | .opAnd _ => .opand
  | .opOr _ => .opor
  | .opEq _ => .opeq
  | .opNeq _ => .opneq
  | .opLt _ => .oplt
  | .opLte _ => .oplte
  | .opGt _ => .opgt
  | .opGte _ => .opgte

/-- Variant-name string to discriminant, as used by the parser's
`consume_next` expected-variant lists (the Rust `get_dummy_token_type`
helper lives in the parser module not among the staged sources; the mapping
is fixed by the variant-name strings the staged parser passes). Unknown
strings map to the end-of-buffer discriminant; the staged parser only ever
passes known strings. -/
def strToTokTy : String → TokTy
  | "(" => .parensopen
  | ")" => .parensclose
  | "[" => .braceopen
  | "]" => .braceclose
  | "\x7b" => .curlyopen
  | "\x7d" => .curlyclose
  | "," => .commaTok
  | ";" => .endstatement
  | ":" => .colonTok
  | "'" => .singlequote
  | "=" => .assignTok
  | "<" => .oplt
  | ">" => .opgt
  | "->" => .objectaccess
  | "::" => .staticaccess
  | "+" => .opadd
  | "-" => .opsub
  | "*" => .opmul
  | "/" => .opdiv
  | "&&" => .opand
  | "||" => .opor
  | "==" => .opeq
  | "!=" => .opneq
  | ">=" => .opgte
  | "<=" => .oplte
  | "!" => .unopnot
  | "name" => .nameTok
  | "stringval" => .stringval
  | "integerval" => .integerval
  | "floatval" => .floatval
  | "booleanval" => .booleanval
  | "typestring" => .typestring
  | "typeinteger" => .typeinteger
  | "typefloat" => .typefloat
  | "typeboolean" => .typeboolean
  | "var" => .kwvar
  | "if" => .kwif
  | "elseif" => .kwelseif
  | "else" => .kwelse
  | "loop" => .kwloop
  | "for" => .kwfor
  | "in" => .kwin
  | "return" => .kwreturn
  | "break" => .kwbreak
  | "continue" => .kwcontinue
  | "new" => .kwnew
  | _ => .eob

/-- Short printable form of a token, used only inside parse-error message
strings (the Rust Display impl is not among the staged sources; no claim
depends on these messages). -/
def Token.displayStr (t : Token) : String :=
  match t.typ with
  | .eob => "eob"
  | .nameTok => "name"
  | .stringval => "stringval"
  | .integerval => "integerval"
  | .floatval => "floatval"
  | .booleanval => "booleanval"
  | .typestring => "str"
  | .typeinteger => "int"
  | .typefloat => "float"
  | .typeboolean => "bool"
  | .kwvar => "var"
  | .kwif => "if"
  | .kwelseif => "elseif"
  | .kwelse => "else"
  | .kwloop => "loop"
  | .kwfor => "for"
  | .kwin => "in"
  | .kwreturn => "return"
  | .kwbreak => "break"
  | .kwcontinue => "continue"
  | .kwnew => "new"
  | .parensopen => "("
  | .parensclose => ")"
  | .braceopen => "["
  | .braceclose => "]"
  | .curlyopen => "brace-open"
  | .curlyclose => "brace-close"
  | .commaTok => ","
  | .endstatement => ";"
  | .colonTok => ":"
  | .singlequote => "quote"
  | .assignTok => "="
  | .objectaccess => "->"
  | .staticaccess => "::"
  | .unopnot => "!"
  | .opadd => "+"
  | .opsub => "-"
  | .opmul => "*"
  | .opdiv => "/"
  | .opand => "&&"
  | .opor => "||"
  | .opeq => "=="
  | .opneq => "!="
  | .oplt => "<"
  | .oplte => "<="
  | .opgt => ">"
  | .opgte => ">="

/-- Embeds `BinOp::from_token` (ast/mod.rs lines 211-235): classify an
operator token, always left-associative; a non-operator token is an error
(modelled as none). -/
def BinOp.from_token (token : Token) : Option BinOp :=
  let fpos := token.get_file_position
  match token with
  | Token.opAdd _ => some ⟨fpos, .add, true⟩
  | Token.opSub _ => some ⟨fpos, .sub, true⟩
  | Token.opMul _ => some ⟨fpos, .mul, true⟩
  | Token.opDiv _ => some ⟨fpos, .div, true⟩
  | Token.opAnd _ => some ⟨fpos, .and, true⟩
  | Token.opOr _ => some ⟨fpos, .or, true⟩
  | Token.opLt _ => some ⟨fpos, .lt, true⟩
  | Token.opLte _ => some ⟨fpos, .lte, true⟩
  | Token.opGt _ => some ⟨fpos, .gt, true⟩
  | Token.opGte _ => some ⟨fpos, .gte, true⟩
  | Token.opEq _ => some ⟨fpos, .eq, true⟩
  | Token.opNeq _ => some ⟨fpos, .neq, true⟩
  | _ => none

/-- ParserState: the AstParser's cursor over its token slice. The Rust
struct caches previous/current/next tokens alongside a shared iterator;
all three are functions of the consumed-token count `idx` (the Rust
`tokidx`) over the full slice `toks` (the Rust `shadow`), so the state is
just that pair. -/
structure ParserState where
  toks : List Token
  idx : Nat
  deriving DecidableEq

/-- Current token: the token consumed last (the Rust `ctok` cache). -/
def ParserState.ctok (st : ParserState) : Option Token :=
  if st.idx = 0 then none else st.toks[st.idx - 1]?

/-- Next token: the peeked token (the Rust `ntok` cache). -/
def ParserState.ntok (st : ParserState) : Option Token :=
  st.toks[st.idx]?

/-- POut: outcome of a parser step. Success carries the produced value and
the advanced state; the other outcomes mirror `Outcome`. -/
inductive POut (α : Type) where
  | ok (a : α) (st : ParserState)
  | err (e : ParseError)
  | panic (m : String)
  | fuelOut

/-- Sequencing of parser steps, modelling the Rust question-mark operator:
errors, panics and fuel exhaustion propagate. -/
def POut.bind {α β : Type} : POut α → (α → ParserState → POut β) → POut β
  | .ok a st, f => f a st
  | .err e, _ => .err e
  | .panic m, _ => .panic m
  | .fuelOut, _ => .fuelOut

/-- Embeds `ParsesTokens::consume_next` for the AstParser (ast_parser.rs
lines 37-74): take the next token, fail on end of stream, fail when its
discriminant is not among the expected variant names, else advance. On
success the consumed token (the new `ctok`) is returned with the state.
The two error messages follow the source; the unexpected-token message
text is modelled from the spec (the `unexpected` helper is in a parser
module not among the staged sources) and no claim depends on it. -/
def consume_next (st : ParserState) (next_variants : List String) : POut Token :=
  let next_discriminants : List TokTy := next_variants.map strToTokTy
  match st.toks[st.idx]? with
  | none =>
    match st.ctok with
    | some p =>
      .err ⟨"Unexpected end of token stream after `" ++ p.displayStr ++ "` token",
        some p.get_file_position⟩
    | none => .err ⟨"Unexpected end of token stream", some FilePosition.unknown⟩
  | some t =>
    if next_discriminants.contains t.typ then
      .ok t { st with idx := st.idx + 1 }
    else
      .err ⟨"Unexpected token `" ++ t.displayStr ++ "`, expected one of: " ++
        String.intercalate ", " next_variants, some t.get_file_position⟩

/-- Embeds `AstParser::validate_paramtype_name` (ast_parser.rs lines
952-964): a type-parameter name is one single uppercase ASCII letter. -/
def validate_paramtype_name (nm : String) : Bool :=
  if nm.length ≠ 1 then
    false
  else
    let acceptable : List Char :=
      ['A', 'B', 'C', 'D', 'E', 'F', 'G', 'H', 'I', 'J', 'K', 'L', 'M',
       'N', 'O', 'P', 'Q', 'R', 'S', 'T', 'U', 'V', 'W', 'X', 'Y', 'Z']
    acceptable.contains (nm.toList.headD 'a')

mutual

/-- Embeds `AstParser::parse_block` (ast_parser.rs lines 147-179). The
first tuple component (statement-kind names) is always empty in the
source (the computing code is commented out there). -/
def parse_block : Nat → Bool → ParserState → POut (List String × Block)
  | 0, _, _ => .fuelOut
  | Nat.succ fuel, is_root, st =>
    if is_root then
      let block_open_pos := (st.ntok.getD Token.eob).get_file_position
      (parse_statements fuel st).bind fun statements st =>
        .ok ([], Block.mk block_open_pos statements) st
    else
      (consume_next st ["\x7b"]).bind fun ctok st =>
        match ctok with
        | Token.curlyOpen f =>
          (parse_statements fuel st).bind fun statements st =>
            (consume_next st ["\x7d"]).bind fun _ st =>
              .ok ([], Block.mk f statements) st
        | _ => .panic "unreachable"

/-- Embeds the statement loop of `AstParser::parse_statements`
(ast_parser.rs lines 182-214): stop at end of buffer or a closing curly
brace, dispatch on the peeked token, and consume the end-of-statement
semicolon for the statement forms that require one. -/
def parse_statements : Nat → ParserState → POut (List Statement)
  | 0, _ => .fuelOut
  | Nat.succ fuel, st =>
    match st.ntok with
    | none => .panic unwrapNoneMsg
    | some nt =>
      let stmt_ends_in_eos : Bool :=
        match nt with
        | Token.name .. => true
        | Token.kwVar _ => true
        | Token.kwContinue _ => true
        | Token.kwBreak _ => true
        | Token.kwReturn _ => true
        | Token.parensOpen _ => true
        | _ => false
      match nt with
      | Token.eob => .ok [] st
      | Token.curlyClose _ => .ok [] st
      | _ =>
        (match nt with
         | Token.kwVar _ => parse_variable_declaration_statement fuel st
         | Token.kwIf _ => parse_if_statement fuel st
         | Token.kwLoop _ => parse_loop_statement fuel st
         | Token.kwFor _ => parse_for_statement fuel st
         | Token.kwReturn _ => parse_return_statement fuel st
         | Token.kwBreak _ => parse_break_statement fuel st
         | Token.kwContinue _ => parse_continue_statement fuel st
         | _ => parse_expression_statement fuel st).bind fun statement st =>
          (if stmt_ends_in_eos then
            (consume_next st [";"]).bind fun _ st => POut.ok () st
          else
            POut.ok () st).bind fun _ st =>
            (parse_statements fuel st).bind fun rest st =>
              .ok (statement :: rest) st

/-- Embeds `AstParser::parse_type_declaration` (ast_parser.rs lines
217-266): a primitive type keyword, a type-parameter letter (when
`parse_param_types` is set), or a name with optional angle-bracketed type
arguments. -/
def parse_type_declaration : Nat → Bool → ParserState → POut SahaType
  | 0, _, _ => .fuelOut
  | Nat.succ fuel, parse_param_types, st =>
    (consume_next st ["name", "typestring", "typeboolean", "typeinteger", "typefloat"]).bind
      fun ctok st =>
      match ctok with
      | Token.typeBoolean _ => .ok SahaType.bool st
      | Token.typeString _ => .ok SahaType.str st
      | Token.typeInteger _ => .ok SahaType.int st
      | Token.typeFloat _ => .ok SahaType.float st
      | Token.name _ n _ =>
        if parse_param_types ∧ validate_paramtype_name n then
          match n.toList with
          | c :: _ => .ok (SahaType.typeParam c) st
          | [] => .panic unwrapNoneMsg
        else
          (match st.ntok with
           | none => POut.panic unwrapNoneMsg
           | some (Token.opLt _) =>
             (consume_next st ["<"]).bind fun _ st =>
               (parse_type_declaration_gens fuel parse_param_types st).bind
                 fun type_params st =>
                 (consume_next st [">"]).bind fun _ st =>
                   POut.ok (SahaType.name n type_params) st
           | some _ => POut.ok (SahaType.name n []) st)
      | _ => .panic "unreachable"

/-- Embeds the comma-separated generics loop inside
`parse_type_declaration` (ast_parser.rs lines 236-250). -/
def parse_type_declaration_gens : Nat → Bool → ParserState → POut (List SahaType)
  | 0, _, _ => .fuelOut
  | Nat.succ fuel, parse_param_types, st =>
    (parse_type_declaration fuel parse_param_types st).bind fun t st =>
      match st.ntok with
      | none => .panic unwrapNoneMsg
      | some (Token.comma _) =>
        (consume_next st [","]).bind fun _ st =>
          (parse_type_declaration_gens fuel parse_param_types st).bind fun rest st =>
            .ok (t :: rest) st
      | some _ => .ok [t] st

/-- Embeds `AstParser::parse_variable_declaration_statement` (ast_parser.rs
lines 269-315). -/
def parse_variable_declaration_statement : Nat → ParserState → POut Statement
  | 0, _ => .fuelOut
  | Nat.succ fuel, st =>
    (consume_next st ["var"]).bind fun ctok st =>
      match ctok with
      | Token.kwVar statement_pos =>
        (consume_next st ["name"]).bind fun ctok st =>
          match ctok with
          | Token.name ident_pos _ ident_val =>
            let identifier := Identifier.mk ident_pos ident_val []
            (consume_next st ["'"]).bind fun _ st =>
              (parse_type_declaration fuel true st).bind fun var_type st =>
                match st.ntok with
                | none => .panic unwrapNoneMsg
                | some (Token.endStatement _) =>
                  .ok (Statement.mk statement_pos
                    (.varDeclaration identifier var_type none)) st
                | some _ =>
                  (consume_next st ["="]).bind fun _ st =>
                    (parse_expression fuel 0 st).bind fun value_expr st =>
                      .ok (Statement.mk statement_pos
                        (.varDeclaration identifier var_type (some value_expr))) st
          | _ => .panic "unreachable"
      | _ => .panic "unreachable"

/-- Embeds `AstParser::parse_expression_statement` (ast_parser.rs lines
318-325). -/
def parse_expression_statement : Nat → ParserState → POut Statement
  | 0, _ => .fuelOut
  | Nat.succ fuel, st =>
    match st.ntok with
    | none => .panic unwrapNoneMsg
    | some nt =>
      (parse_expression fuel 0 st).bind fun e st =>
        .ok (Statement.mk nt.get_file_position (.expression e)) st

/-- Embeds `AstParser::parse_break_statement` (ast_parser.rs lines
328-335). -/
def parse_break_statement : Nat → ParserState → POut Statement
  | 0, _ => .fuelOut
  | Nat.succ _, st =>
    (consume_next st ["break"]).bind fun ctok st =>
      .ok (Statement.mk ctok.get_file_position .breakStatement) st

/-- Embeds `AstParser::parse_continue_statement` (ast_parser.rs lines
338-345). -/
def parse_continue_statement : Nat → ParserState → POut Statement
  | 0, _ => .fuelOut
  | Nat.succ _, st =>
    (consume_next st ["continue"]).bind fun ctok st =>
      .ok (Statement.mk ctok.get_file_position .continueStatement) st

/-- Embeds `AstParser::parse_return_statement` (ast_parser.rs lines
348-370): a semicolon right after the keyword returns the void literal. -/
def parse_return_statement : Nat → ParserState → POut Statement
  | 0, _ => .fuelOut
  | Nat.succ fuel, st =>
    (consume_next st ["return"]).bind fun ctok st =>
      let return_pos := ctok.get_file_position
      match st.ntok with
      | none => .panic unwrapNoneMsg
      | some (Token.endStatement p) =>
        .ok (Statement.mk return_pos (.returnStatement
          (Expression.mk (Token.endStatement p).get_file_position
            (.literalValue Value.void)))) st
      | some _ =>
        (parse_expression fuel 0 st).bind fun e st =>
          .ok (Statement.mk return_pos (.returnStatement e)) st

/-- Embeds `AstParser::parse_if_statement` (ast_parser.rs lines 373-420). -/
def parse_if_statement : Nat → ParserState → POut Statement
  | 0, _ => .fuelOut
  | Nat.succ fuel, st =>
    (consume_next st ["if"]).bind fun ctok st =>
      let if_pos := ctok.get_file_position
      (consume_next st ["("]).bind fun _ st =>
        (parse_expression fuel 0 st).bind fun if_cond st =>
          (consume_next st [")"]).bind fun _ st =>
            (parse_block fuel false st).bind fun ifb st =>
              (parse_if_elifs fuel st).bind fun elifs st =>
                match st.ntok with
                | none => .panic unwrapNoneMsg
                | some (Token.kwElse _) =>
                  (consume_next st ["else"]).bind fun _ st =>
                    (parse_block fuel false st).bind fun eb st =>
                      .ok (Statement.mk if_pos
                        (.ifStatement if_cond ifb.2 elifs (some eb.2))) st
                | some _ =>
                  .ok (Statement.mk if_pos (.ifStatement if_cond ifb.2 elifs none)) st

/-- Embeds the elseif loop of `parse_if_statement` (ast_parser.rs lines
388-405): each branch becomes a synthetic nested If statement carrying
the elseif keyword's position. -/
def parse_if_elifs : Nat → ParserState → POut (List Statement)
  | 0, _ => .fuelOut
  | Nat.succ fuel, st =>
    match st.ntok with
    | none => .panic unwrapNoneMsg
    | some (Token.kwElseif _) =>
      (consume_next st ["elseif"]).bind fun ctok st =>
        let elif_pos := ctok.get_file_position
        (consume_next st ["("]).bind fun _ st =>
          (parse_expression fuel 0 st).bind fun elif_cond st =>
            (consume_next st [")"]).bind fun _ st =>
              (parse_block fuel false st).bind fun eb st =>
                (parse_if_elifs fuel st).bind fun rest st =>
                  .ok (Statement.mk elif_pos
                    (.ifStatement elif_cond eb.2 [] none) :: rest) st
    | some _ => .ok [] st

/-- Embeds `AstParser::parse_loop_statement` (ast_parser.rs lines
423-433). -/
def parse_loop_statement : Nat → ParserState → POut Statement
  | 0, _ => .fuelOut
  | Nat.succ fuel, st =>
    (consume_next st ["loop"]).bind fun ctok st =>
      let loop_pos := ctok.get_file_position
      (parse_block fuel false st).bind fun lb st =>
        .ok (Statement.mk loop_pos (.loopStatement lb.2)) st

/-- Embeds `AstParser::parse_for_statement` (ast_parser.rs lines
436-483). -/
def parse_for_statement : Nat → ParserState → POut Statement
  | 0, _ => .fuelOut
  | Nat.succ fuel, st =>
    (consume_next st ["for"]).bind fun ctok st =>
      let for_pos := ctok.get_file_position
      (consume_next st ["("]).bind fun _ st =>
        (consume_next st ["name"]).bind fun ctok st =>
          match ctok with
          | Token.name kpos _ kname =>
            let kident := Identifier.mk kpos kname []
            (consume_next st [","]).bind fun _ st =>
              (consume_next st ["name"]).bind fun ctok st =>
                match ctok with
                | Token.name vpos _ vname =>
                  let vident := Identifier.mk vpos vname []
                  (consume_next st ["in"]).bind fun _ st =>
                    (parse_expression fuel 0 st).bind fun iterable_expr st =>
                      (consume_next st [")"]).bind fun _ st =>
                        (parse_block fuel false st).bind fun for_block st =>
                          .ok (Statement.mk for_pos
                            (.forStatement kident vident iterable_expr for_block.2)) st
                | _ => .panic "unreachable"
          | _ => .panic "unreachable"

/-- Embeds `AstParser::parse_expression` (ast_parser.rs lines 486-505):
parse a primary, hand an access token to object-access parsing, stop below
the minimum precedence, otherwise enter binop parsing. -/
def parse_expression : Nat → Int → ParserState → POut Expression
  | 0, _, _ => .fuelOut
  | Nat.succ fuel, minimum_op_precedence, st =>
    (parse_primary fuel st).bind fun expression st =>
      let ntokv := st.ntok.getD Token.eob
      let next_precedence := ntokv.get_precedence
      match ntokv with
      | Token.objectAccess _ => parse_generic_object_access fuel expression st
      | Token.staticAccess _ => parse_generic_object_access fuel expression st
      | _ =>
        if next_precedence < minimum_op_precedence then
          .ok expression st
        else
          parse_binop_expression fuel expression st

/-- Embeds `AstParser::parse_primary` (ast_parser.rs lines 510-547). -/
def parse_primary : Nat → ParserState → POut Expression
  | 0, _ => .fuelOut
  | Nat.succ fuel, st =>
    (consume_next st ["(", "[", "\x7b", "new", "-", "!",
        "name", "stringval", "integerval", "floatval", "booleanval"]).bind fun ctok st =>
      match ctok with
      | Token.parensOpen _ =>
        (parse_expression fuel 0 st).bind fun e st =>
          (consume_next st [")"]).bind fun _ st =>
            .ok e st
      | Token.braceOpen _ => parse_list_creation_shorthand fuel st
      | Token.curlyOpen _ => parse_dict_creation_shorthand fuel st
      | Token.unOpNot _ => parse_unop_expression fuel st
      | Token.opSub _ => parse_unop_expression fuel st
      | Token.stringValue _ _ => parse_literal_value fuel st
      | Token.integerValue _ _ => parse_literal_value fuel st
      | Token.floatValue _ _ => parse_literal_value fuel st
      | Token.booleanValue _ _ => parse_literal_value fuel st
      | Token.kwNew _ => parse_new_instance_expression fuel st
      | Token.name .. =>
        (parse_ident_path fuel st).bind fun identpath_expr st =>
          match st.ntok with
          | none => .panic unwrapNoneMsg
          | some (Token.parensOpen _) => parse_function_call fuel identpath_expr st
          | some (Token.assign _) => parse_assignment_expression fuel identpath_expr st
          | some _ => .ok identpath_expr st
      | _ => .panic "unreachable"

/-- Embeds `AstParser::parse_list_creation_shorthand` (ast_parser.rs lines
550-574): the opening bracket was consumed by `parse_primary`; elements
are parsed by the loop and the closing bracket is consumed at the end. -/
def parse_list_creation_shorthand : Nat → ParserState → POut Expression
  | 0, _ => .fuelOut
  | Nat.succ fuel, st =>
    match st.ctok with
    | none => .panic unwrapNoneMsg
    | some c =>
      let list_pos := c.get_file_position
      (parse_list_items fuel st).bind fun list_expr st =>
        (consume_next st ["]"]).bind fun _ st =>
          .ok (Expression.mk list_pos (.listDeclaration list_expr)) st

/-- Embeds the element loop of `parse_list_creation_shorthand`
(ast_parser.rs lines 554-566): an element expression is parsed before any
delimiter is examined, so each pass adds one element. -/
def parse_list_items : Nat → ParserState → POut (List Expression)
  | 0, _ => .fuelOut
  | Nat.succ fuel, st =>
    (parse_expression fuel 0 st).bind fun e st =>
      match st.ntok with
      | none => .panic unwrapNoneMsg
      | some (Token.comma _) =>
        (consume_next st [","]).bind fun _ st =>
          (parse_list_items fuel st).bind fun rest st =>
            .ok (e :: rest) st
      | some (Token.braceClose _) => .ok [e] st
      | some _ =>
        (parse_list_items fuel st).bind fun rest st =>
          .ok (e :: rest) st

/-- Embeds `AstParser::parse_dict_creation_shorthand` (ast_parser.rs lines
577-607). -/
def parse_dict_creation_shorthand : Nat → ParserState → POut Expression
  | 0, _ => .fuelOut
  | Nat.succ fuel, st =>
    match st.ctok with
    | none => .panic unwrapNoneMsg
    | some c =>
      let dict_pos := c.get_file_position
      (parse_dict_items fuel st).bind fun dict_expr st =>
        (consume_next st ["\x7d"]).bind fun _ st =>
          .ok (Expression.mk dict_pos (.dictDeclaration dict_expr)) st

/-- Embeds the entry loop of `parse_dict_creation_shorthand` (ast_parser.rs
lines 581-599). -/
def parse_dict_items : Nat → ParserState → POut (List (Expression × Expression))
  | 0, _ => .fuelOut
  | Nat.succ fuel, st =>
    (parse_expression fuel 0 st).bind fun key st =>
      (consume_next st [":"]).bind fun _ st =>
        (parse_expression fuel 0 st).bind fun value st =>
          match st.ntok with
          | none => .panic unwrapNoneMsg
          | some (Token.comma _) =>
            (consume_next st [","]).bind fun _ st =>
              (parse_dict_items fuel st).bind fun rest st =>
                .ok ((key, value) :: rest) st
          | some (Token.curlyClose _) => .ok [(key, value)] st
          | some _ =>
            (parse_dict_items fuel st).bind fun rest st =>
              .ok ((key, value) :: rest) st

/-- Embeds `AstParser::parse_assignment_expression` (ast_parser.rs lines
610-619). -/
def parse_assignment_expression : Nat → Expression → ParserState → POut Expression
  | 0, _, _ => .fuelOut
  | Nat.succ fuel, identpath, st =>
    (consume_next st ["="]).bind fun _ st =>
      (parse_expression fuel 0 st).bind fun value_expr st =>
        .ok (Expression.mk identpath.file_position (.assignment identpath value_expr)) st

/-- Embeds `AstParser::parse_generic_object_access` (ast_parser.rs lines
623-641): the right-hand side is a full expression. -/
def parse_generic_object_access : Nat → Expression → ParserState → POut Expression
  | 0, _, _ => .fuelOut
  | Nat.succ fuel, lhs_expr, st =>
    (consume_next st ["->", "::"]).bind fun ctok st =>
      match ctok with
      | Token.objectAccess f =>
        (parse_expression fuel 0 st).bind fun rhs_expr st =>
          .ok (Expression.mk f (.objectAccess lhs_expr .instanceAccess rhs_expr)) st
      | Token.staticAccess f =>
        (parse_expression fuel 0 st).bind fun rhs_expr st =>
          .ok (Expression.mk f (.objectAccess lhs_expr .staticAccess rhs_expr)) st
      | _ => .panic "unreachable"

/-- Embeds `AstParser::parse_binop_expression` (ast_parser.rs lines
645-687): consume the operator, parse a primary right-hand side, let the
while-loop extend the right-hand side, then either finish or continue with
the built operation as the new left-hand side. -/
def parse_binop_expression : Nat → Expression → ParserState → POut Expression
  | 0, _, _ => .fuelOut
  | Nat.succ fuel, lhs_expr, st =>
    (consume_next st ["+", "-", "*", "/", "&&", "||", "==", ">", "<", ">=", "<="]).bind
      fun op_token st =>
      match BinOp.from_token op_token with
      | none =>
        .err ⟨"Could not parse binary operation type from token `" ++
          op_token.displayStr ++ "`", some op_token.get_file_position⟩
      | some binop =>
        (parse_primary fuel st).bind fun rhs_expression st =>
          (parse_binop_while fuel op_token.get_precedence binop.is_left_assoc
              rhs_expression st).bind fun rhs_expression st =>
            let binop_expr := Expression.mk lhs_expr.file_position
              (.binaryOperation lhs_expr binop rhs_expression)
            let next_precedence := (st.ntok.getD Token.eob).get_precedence
            if next_precedence < 0 then
              .ok binop_expr st
            else
              parse_binop_expression fuel binop_expr st

/-- Embeds the while-loop of `parse_binop_expression` (ast_parser.rs lines
666-674): while the peeked precedence is at least the operator's and the
operator is left-associative, fold further binops into the right side. -/
def parse_binop_while : Nat → Int → Bool → Expression → ParserState → POut Expression
  | 0, _, _, _, _ => .fuelOut
  | Nat.succ fuel, op_precedence, is_left_assoc, rhs_expression, st =>
    let next_precedence := (st.ntok.getD Token.eob).get_precedence
    if next_precedence ≥ op_precedence ∧ is_left_assoc = true then
      (parse_binop_expression fuel rhs_expression st).bind fun rhs_expression st =>
        parse_binop_while fuel op_precedence is_left_assoc rhs_expression st
    else
      .ok rhs_expression st

/-- Embeds `AstParser::parse_unop_expression` (ast_parser.rs lines
690-706): the operator token was consumed by `parse_primary`. -/
def parse_unop_expression : Nat → ParserState → POut Expression
  | 0, _ => .fuelOut
  | Nat.succ fuel, st =>
    match st.ctok with
    | none => .panic unwrapNoneMsg
    | some (Token.unOpNot f) =>
      (parse_primary fuel st).bind fun e st =>
        .ok (Expression.mk f (.unaryOperation (UnaryOp.mk f .not) e)) st
    | some (Token.opSub f) =>
      (parse_primary fuel st).bind fun e st =>
        .ok (Expression.mk f (.unaryOperation (UnaryOp.mk f .minus) e)) st
    | some _ => .panic "unreachable"

/-- Embeds `AstParser::parse_literal_value` (ast_parser.rs lines 709-726):
the literal token was consumed by `parse_primary`. -/
def parse_literal_value : Nat → ParserState → POut Expression
  | 0, _ => .fuelOut
  | Nat.succ _, st =>
    match st.ctok with
    | none => .panic unwrapNoneMsg
    | some c =>
      let fpos := c.get_file_position
      match c with
      | Token.stringValue _ val =>
        .ok (Expression.mk fpos (.literalValue (Value.ofStr val))) st
      | Token.booleanValue _ val =>
        .ok (Expression.mk fpos (.literalValue (Value.ofBool val))) st
      | Token.integerValue _ val =>
        .ok (Expression.mk fpos (.literalValue (Value.ofInt val))) st
      | Token.floatValue _ val =>
        .ok (Expression.mk fpos (.literalValue (Value.ofFloat val))) st
      | _ => .panic "unreachable"

/-- Embeds `AstParser::parse_ident_path` (ast_parser.rs lines 729-803): a
root name (with optional type parameters) followed by a chain of access
segments; the root token was consumed by `parse_primary`. -/
def parse_ident_path : Nat → ParserState → POut Expression
  | 0, _ => .fuelOut
  | Nat.succ fuel, st =>
    match st.ctok with
    | none => .panic unwrapNoneMsg
    | some curtok =>
      match curtok with
      | Token.name pos aliasName _ =>
        (match st.ntok with
         | none => POut.panic unwrapNoneMsg
         | some (Token.opLt _) => parse_new_instance_type_params fuel st
         | some _ => POut.ok [] st).bind fun typeparams st =>
          let root := Identifier.mk pos aliasName typeparams
          (parse_ident_path_items fuel st).bind fun path_items st =>
            .ok (Expression.mk root.file_position (.identPath root path_items)) st
      | _ =>
        .err ⟨"Unexpected `" ++ curtok.displayStr ++ "`, expected name",
          some curtok.get_file_position⟩

/-- Embeds the access-chain loop of `parse_ident_path` (ast_parser.rs lines
754-795). -/
def parse_ident_path_items : Nat → ParserState → POut (List (AccessKind × Identifier))
  | 0, _ => .fuelOut
  | Nat.succ fuel, st =>
    match st.ntok with
    | none => .panic unwrapNoneMsg
    | some (Token.objectAccess _) => parse_ident_path_item fuel st
    | some (Token.staticAccess _) => parse_ident_path_item fuel st
    | some _ => .ok [] st

/-- One pass of the access-chain loop of `parse_ident_path`. -/
def parse_ident_path_item : Nat → ParserState → POut (List (AccessKind × Identifier))
  | 0, _ => .fuelOut
  | Nat.succ fuel, st =>
    (consume_next st ["->", "::"]).bind fun ctok st =>
      (match ctok with
       | Token.objectAccess _ => POut.ok AccessKind.instanceAccess st
       | Token.staticAccess _ => POut.ok AccessKind.staticAccess st
       | _ => POut.panic "unreachable").bind fun access_kind st =>
        (consume_next st ["name"]).bind fun ctok st =>
          match ctok with
          | Token.name pos aliasName _ =>
            (match st.ntok with
             | none => POut.panic unwrapNoneMsg
             | some (Token.opLt _) => parse_new_instance_type_params fuel st
             | some _ => POut.ok [] st).bind fun typeparams st =>
              let item_ident := Identifier.mk pos aliasName typeparams
              (parse_ident_path_items fuel st).bind fun rest st =>
                .ok ((access_kind, item_ident) :: rest) st
          | _ => .panic "unreachable"

/-- Embeds `AstParser::parse_function_call` (ast_parser.rs lines
806-822). -/
def parse_function_call : Nat → Expression → ParserState → POut Expression
  | 0, _, _ => .fuelOut
  | Nat.succ fuel, ident_expr, st =>
    (consume_next st ["("]).bind fun ctok st =>
      let call_pos := ctok.get_file_position
      (parse_callable_args fuel true st).bind fun call_args st =>
        (consume_next st [")"]).bind fun _ st =>
          .ok (Expression.mk call_pos (.functionCall ident_expr call_args)) st

/-- Embeds `AstParser::parse_callable_args` (ast_parser.rs lines 826-860):
the opening parenthesis was consumed by the caller and provides the
position of the argument collection. -/
def parse_callable_args : Nat → Bool → ParserState → POut Expression
  | 0, _, _ => .fuelOut
  | Nat.succ fuel, allow_unnamed_single_param, st =>
    match st.ctok with
    | none => .panic unwrapNoneMsg
    | some c =>
      let args_pos := c.get_file_position
      (parse_callable_args_items fuel allow_unnamed_single_param st).bind fun args st =>
        .ok (Expression.mk args_pos (.callableArgs args)) st

/-- Embeds the argument loop of `parse_callable_args` (ast_parser.rs lines
830-852): a single unnamed argument terminates the list when
`allow_unnamed_single_param` is set. -/
def parse_callable_args_items : Nat → Bool → ParserState → POut (List Expression)
  | 0, _, _ => .fuelOut
  | Nat.succ fuel, allow_unnamed_single_param, st =>
    match st.ntok with
    | none => .panic unwrapNoneMsg
    | some (Token.parensClose _) => .ok [] st
    | some (Token.comma _) =>
      (consume_next st [","]).bind fun _ st =>
        parse_callable_args_items fuel allow_unnamed_single_param st
    | some _ =>
      (parse_callable_arg fuel st).bind fun pr st =>
        if allow_unnamed_single_param ∧ pr.1 = false then
          .ok [pr.2] st
        else
          (parse_callable_args_items fuel allow_unnamed_single_param st).bind
            fun rest st =>
            .ok (pr.2 :: rest) st

/-- Embeds `AstParser::parse_callable_arg` (ast_parser.rs lines 863-911):
an argument is named when a name token is directly followed by an
assignment token (looked up in the raw token slice); otherwise it is
positional with the empty-string name. -/
def parse_callable_arg : Nat → ParserState → POut (Bool × Expression)
  | 0, _ => .fuelOut
  | Nat.succ fuel, st =>
    match st.ntok with
    | none => .panic unwrapNoneMsg
    | some nt =>
      (match nt with
       | Token.name .. =>
         match st.toks[st.idx + 1]? with
         | none => POut.panic "index out of bounds"
         | some (Token.assign _) => POut.ok true st
         | some _ => POut.ok false st
       | _ => POut.ok false st).bind fun is_named_arg st =>
        let argpos := nt.get_file_position
        if is_named_arg then
          (consume_next st ["name"]).bind fun ctok st =>
            match ctok with
            | Token.name newargpos _ newargname =>
              (consume_next st ["="]).bind fun _ st =>
                (parse_expression fuel 0 st).bind fun argvalexpr st =>
                  .ok (true, Expression.mk newargpos
                    (.callableArg (Identifier.mk newargpos newargname []) argvalexpr)) st
            | _ => .panic "unreachable"
        else
          (parse_expression fuel 0 st).bind fun argvalexpr st =>
            .ok (false, Expression.mk argpos
              (.callableArg (Identifier.mk argpos "" []) argvalexpr)) st

/-- Embeds `AstParser::parse_new_instance_expression` (ast_parser.rs lines
914-950): the `new` keyword was consumed by `parse_primary`; the class
identifier keeps an empty type-parameter list and the parsed type
arguments are attached to the NewInstance node itself. -/
def parse_new_instance_expression : Nat → ParserState → POut Expression
  | 0, _ => .fuelOut
  | Nat.succ fuel, st =>
    match st.ctok with
    | none => .panic unwrapNoneMsg
    | some c =>
      let newup_pos := c.get_file_position
      (consume_next st ["name"]).bind fun ctok st =>
        match ctok with
        | Token.name cname_pos cname _ =>
          (match st.ntok with
           | none => POut.panic unwrapNoneMsg
           | some (Token.opLt _) => parse_new_instance_type_params fuel st
           | some _ => POut.ok [] st).bind fun typeparams st =>
            (consume_next st ["("]).bind fun _ st =>
              (parse_callable_args fuel false st).bind fun newup_args st =>
                (consume_next st [")"]).bind fun _ st =>
                  .ok (Expression.mk newup_pos (.newInstance
                    (Identifier.mk cname_pos cname []) newup_args typeparams)) st
        | _ => .panic "unreachable"

/-- Embeds `AstParser::parse_new_instance_type_params` (ast_parser.rs lines
967-994). -/
def parse_new_instance_type_params : Nat → ParserState → POut (List SahaType)
  | 0, _ => .fuelOut
  | Nat.succ fuel, st =>
    (consume_next st ["<"]).bind fun _ st =>
      (parse_new_instance_type_params_items fuel st).bind fun tparams st =>
        (consume_next st [">"]).bind fun _ st =>
          .ok tparams st

/-- Embeds the element loop of `parse_new_instance_type_params`
(ast_parser.rs lines 972-989): types are parsed with `parse_param_types`
off. -/
def parse_new_instance_type_params_items : Nat → ParserState → POut (List SahaType)
  | 0, _ => .fuelOut
  | Nat.succ fuel, st =>
    (parse_type_declaration fuel false st).bind fun ty st =>
      match st.ntok with
      | none => .panic unwrapNoneMsg
      | some (Token.opGt _) => .ok [ty] st
      | some (Token.comma _) =>
        (consume_next st [","]).bind fun _ st =>
          (parse_new_instance_type_params_items fuel st).bind fun rest st =>
            .ok (ty :: rest) st
      | some _ =>
        (parse_new_instance_type_params_items fuel st).bind fun rest st =>
          .ok (ty :: rest) st

end

/-- Embeds `AstParser::start_parse` (ast_parser.rs lines 122-138): fail on
an empty token slice, else parse the root block as the entrypoint. -/
def start_parse (fuel : Nat) (tokens : List Token) : POut Ast :=
  let st : ParserState := ⟨tokens, 0⟩
  match tokens[0]? with
  | none => .err ⟨"Invalid token stream, no tokens found", some FilePosition.unknown⟩
  | some _ =>
    (parse_block fuel true st).bind fun pr st =>
      .ok (Ast.mk pr.2) st

/-- Printable form of an option, used only by the debug printers below. -/
def optFmt {α : Type} (f : α → String) : Option α → String
  | none => "-"
  | some a => f a

/-- Printable form of a file position, in the style of the Rust Display
impl used by the repository's tests. -/
def FilePosition.fmt (p : FilePosition) : String :=
  p.file ++ ":" ++ toString p.line ++ ":" ++ toString p.column

/-- Printable form of a value; a total injective-on-use debug printer used
to discriminate unequal parse results in proofs. -/
def Value.fmt (v : Value) : String :=
  "Value(" ++ v.kind.debugStr ++ "," ++ optFmt id v.str ++ "," ++
    optFmt toString v.int ++ "," ++ optFmt (fun f => toString f.bits) v.float ++ "," ++
    optFmt toString v.bool ++ "," ++ optFmt toString v.obj ++ ")"

/-- Printable form of an identifier. -/
def Identifier.fmt (i : Identifier) : String :=
  "Ident(" ++ i.file_position.fmt ++ "," ++ i.identifier ++ ",<" ++
    SahaType.debugStrList i.type_params ++ ">)"

/-- Printable form of an access kind. -/
def AccessKind.fmt : AccessKind → String
  | .instanceAccess => "Instance"
  | .staticAccess => "Static"

/-- Printable form of a binary operator kind. -/
def BinOpKind.fmt : BinOpKind → String
  | .add => "Add"
  | .sub => "Sub"
  | .mul => "Mul"
  | .div => "Div"
  | .gt => "Gt"
  | .gte => "Gte"
  | .lt => "Lt"
  | .lte => "Lte"
  | .eq => "Eq"
  | .neq => "Neq"
  | .and => "And"
  | .or => "Or"

/-- Printable form of a binary operator. -/
def BinOp.fmt (b : BinOp) : String :=
  "BinOp(" ++ b.file_position.fmt ++ "," ++ b.kind.fmt ++ "," ++ toString b.is_left_assoc ++ ")"

/-- Printable form of a unary operator. -/
def UnaryOp.fmt (u : UnaryOp) : String :=
  "UnaryOp(" ++ u.file_position.fmt ++ "," ++
    (match u.kind with | .not => "Not" | .minus => "Minus") ++ ")"

mutual

/-- Printable form of an expression: a debug printer whose only proof role
is to discriminate structurally different parse trees. -/
def Expression.fmt : Expression → String
  | .mk pos k => "Expression(" ++ pos.fmt ++ "," ++ ExpressionKind.fmt k ++ ")"

/-- Printable form of an expression kind. -/
def ExpressionKind.fmt : ExpressionKind → String
  | .literalValue v => "LiteralValue(" ++ v.fmt ++ ")"
  | .assignment t v => "Assignment(" ++ Expression.fmt t ++ "," ++ Expression.fmt v ++ ")"
  | .identPath root path =>
      "IdentPath(" ++ root.fmt ++ ",[" ++ Expression.fmtPath path ++ "])"
  | .listDeclaration elems => "ListDeclaration([" ++ Expression.fmtList elems ++ "])"
  | .dictDeclaration entries => "DictDeclaration([" ++ Expression.fmtPairs entries ++ "])"
  | .assignOperation t v =>
      "AssignOperation(" ++ Expression.fmt t ++ "," ++ Expression.fmt v ++ ")"
  | .pipeOperation l r => "PipeOperation(" ++ Expression.fmt l ++ "," ++ Expression.fmt r ++ ")"
  | .binaryOperation l op r =>
      "BinaryOperation(" ++ Expression.fmt l ++ "," ++ op.fmt ++ "," ++ Expression.fmt r ++ ")"
  | .unaryOperation op e => "UnaryOperation(" ++ op.fmt ++ "," ++ Expression.fmt e ++ ")"
  | .functionCall callee args =>
      "FunctionCall(" ++ Expression.fmt callee ++ "," ++ Expression.fmt args ++ ")"
  | .callableArgs args => "CallableArgs([" ++ Expression.fmtList args ++ "])"
  | .callableArg n v => "CallableArg(" ++ n.fmt ++ "," ++ Expression.fmt v ++ ")"
  | .objectAccess l a r =>
      "ObjectAccess(" ++ Expression.fmt l ++ "," ++ a.fmt ++ "," ++ Expression.fmt r ++ ")"
  | .newInstance cn args tas =>
      "NewInstance(" ++ cn.fmt ++ "," ++ Expression.fmt args ++ ",[" ++
        SahaType.debugStrList tas ++ "])"

/-- Printable form of an expression list. -/
def Expression.fmtList : List Expression → String
  | [] => ""
  | [e] => Expression.fmt e
  | e :: rest => Expression.fmt e ++ "," ++ Expression.fmtList rest

/-- Printable form of an expression-pair list. -/
def Expression.fmtPairs : List (Expression × Expression) → String
  | [] => ""
  | (k, v) :: rest =>
      "(" ++ Expression.fmt k ++ ":" ++ Expression.fmt v ++ ")" ++ Expression.fmtPairs rest

/-- Printable form of an identifier-path segment list. -/
def Expression.fmtPath : List (AccessKind × Identifier) → String
  | [] => ""
  | (a, i) :: rest => "(" ++ a.fmt ++ "," ++ i.fmt ++ ")" ++ Expression.fmtPath rest

end

/-- Expression of an AST whose entrypoint holds exactly one bare expression
statement; used to state the parse-shape claims. -/
def Ast.firstExpr (a : Ast) : Option Expression :=
  match a.entrypoint.statements with
  | [Statement.mk _ (StatementKind.expression e)] => some e
  | _ => none

/-- MemberVisibility of class members. Modelled from the spec: callables
carry a public/private flag (the Rust enum lives in saha/lib objects.rs
which is not among the staged sources). -/
inductive MemberVisibility where
  | pub
  | priv
  deriving DecidableEq

/-- SahaObject: the data of a live instance. Modelled from the spec: an
instance exposes its class's fully qualified name, implemented behavior
list and named type (the Rust trait lives in objects.rs which is not among
the staged sources; these are the three accessors the staged code calls). -/
structure SahaObject where
  fq_name : String
  implements : List String
  named_type : SahaType

/-- Accessor matching the Rust `get_implements`. -/
def SahaObject.get_implements (o : SahaObject) : List String := o.implements

/-- Accessor matching the Rust `get_fully_qualified_class_name`. -/
def SahaObject.get_fully_qualified_class_name (o : SahaObject) : String := o.fq_name

/-- Accessor matching the Rust `get_named_type`. -/
def SahaObject.get_named_type (o : SahaObject) : SahaType := o.named_type

/-- CoreFunction (types/functions.rs lines 100-109): a host-provided
callable holding a function pointer. -/
structure CoreFunction where
  name : String
  params : SahaFunctionParamDefs
  return_type : SahaType
  fn_ref : SahaFunctionArguments → Except RuntimeError Value
  is_public : Bool
  is_static : Bool

/-- UserFunction (types/functions.rs lines 111-121): a userland callable
holding the body's AST. -/
structure UserFunction where
  source_name : String
  name : String
  params : SahaFunctionParamDefs
  return_type : SahaType
  ast : Ast
  visibility : MemberVisibility
  is_static : Bool

/-- Embeds `SahaCallable::call` for `CoreFunction` (types/functions.rs
lines 124-197): validate arguments, resolve the effective return type
(call-site override or declared), run the function pointer, then enforce
the return type. The instance store of the global symbol table is passed
explicitly as `st_instances`. -/
def CoreFunction.call (f : CoreFunction) (st_instances : HMap InstRef SahaObject)
    (args : SahaFunctionArguments) (return_type : Option SahaType)
    (_type_params : List (Char × SahaType)) (call_source_position : Option FilePosition) :
    Outcome RuntimeError Value :=
  match validate_args f.params args call_source_position with
  | .err e => .err e
  | .panic m => .panic m
  | .fuelOut => .fuelOut
  | .ok validated_args =>
    let ret_type := match return_type with
      | some t => t
      | none => f.return_type
    match f.fn_ref validated_args with
    | .error e => .err e
    | .ok res =>
      match res.kind with
      | SahaType.obj =>
        match ret_type with
        | SahaType.name wanted_name _ =>
          match res.obj with
          | none => .panic unwrapNoneMsg
          | some oref =>
            match alookup st_instances oref with
            | none => .panic unwrapNoneMsg
            | some inst =>
              let inst_impl := inst.get_implements ++ [inst.get_fully_qualified_class_name]
              if inst_impl.contains wanted_name = false ∨ res.kind ≠ ret_type then
                .err ⟨"Return type mismatch for `" ++ f.name ++ "`, expected `" ++
                  ret_type.debugStr ++ "` but received `" ++ res.kind.debugStr ++ "`",
                  call_source_position⟩
              else
                .ok res
        | _ =>
          .err ⟨"Return type mismatch for `" ++ f.name ++ "`, expected `" ++
            ret_type.debugStr ++ "` but received `" ++ res.kind.debugStr ++ "`",
            call_source_position⟩
      | _ =>
        if res.kind ≠ ret_type then
          .err ⟨"Return type mismatch for `" ++ f.name ++ "`, expected `" ++
            ret_type.debugStr ++ "` but received `" ++ res.kind.debugStr ++ "`",
            call_source_position⟩
        else
          .ok res

/-- Embeds `SahaCallable::call` for `UserFunction` (types/functions.rs
lines 232-313). The evaluator (`AstVisitor`) is an external collaborator;
it is passed explicitly as `ast_visitor`, a function that takes the body
AST and the validated arguments and returns a value or a runtime error
(modelled from the spec's evaluator contract). For an Obj result the
instance's implements list (extended with its fully qualified class name)
must contain the name of the declared return type and the instance's named
type must equal the declared return type. -/
def UserFunction.call (f : UserFunction) (st_instances : HMap InstRef SahaObject)
    (ast_visitor : Ast → SahaFunctionArguments → Except RuntimeError Value)
    (args : SahaFunctionArguments) (return_type : Option SahaType)
    (_type_params : List (Char × SahaType)) (call_source_position : Option FilePosition) :
    Outcome RuntimeError Value :=
  match validate_args f.params args call_source_position with
  | .err e => .err e
  | .panic m => .panic m
  | .fuelOut => .fuelOut
  | .ok validated_args =>
    let ret_type := match return_type with
      | some t => t
      | none => f.return_type
    match ast_visitor f.ast validated_args with
    | .error e => .err e
    | .ok res =>
      match res.kind with
      | SahaType.obj =>
        match ret_type with
        | SahaType.name wanted_name _ =>
          match res.obj with
          | none => .panic unwrapNoneMsg
          | some oref =>
            match alookup st_instances oref with
            | none => .panic unwrapNoneMsg
            | some inst =>
              let inst_impl := inst.get_implements ++ [inst.get_fully_qualified_class_name]
              let inst_fqname := inst.get_fully_qualified_class_name
              let inst_type := inst.get_named_type
              if inst_impl.contains wanted_name = false ∨ ret_type ≠ inst_type then
                .err ⟨"Return type mismatch for `" ++ f.name ++ "`, expected `" ++
                  ret_type.debugStr ++ "` but received `\"" ++ inst_fqname ++ "\"`",
                  call_source_position⟩
              else
                .ok res
        | _ =>
          .err ⟨"Return type mismatch for `" ++ f.name ++ "`, expected `" ++
            ret_type.debugStr ++ "` but received `" ++ res.kind.debugStr ++ "`",
            call_source_position⟩
      | _ =>
        if res.kind ≠ ret_type then
          .err ⟨"Return type mismatch for `" ++ f.name ++ "`, expected `" ++
            ret_type.debugStr ++ "` but received `" ++ res.kind.debugStr ++ "`",
            call_source_position⟩
        else
          .ok res

/-- SahaCallable: the sealed sum of the two callable kinds (the Rust trait
object `Box<dyn SahaCallable>` whose only implementors are CoreFunction
and UserFunction). -/
inductive SahaCallable where
  | user (f : UserFunction)
  | core (f : CoreFunction)

/-- Canonical name of a callable (`SahaCallable::get_name`). -/
def SahaCallable.get_name : SahaCallable → String
  | .user f => f.name
  | .core f => f.name

/-- Declared return type of a callable (`SahaCallable::get_return_type`). -/
def SahaCallable.get_return_type : SahaCallable → SahaType
  | .user f => f.return_type
  | .core f => f.return_type

/-- Declared parameters of a callable (`SahaCallable::get_parameters`). -/
def SahaCallable.get_parameters : SahaCallable → SahaFunctionParamDefs
  | .user f => f.params
  | .core f => f.params

/-- CoreConstructorFn: a host constructor for a core class (e.g. List),
invoked with a fresh instance reference, the call arguments, the type
arguments and auxiliary data. Modelled from the spec (objects.rs is not
among the staged sources; the staged symbol table calls it with exactly
these arguments). -/
abbrev CoreConstructorFn :=
  InstRef → SahaFunctionArguments → List SahaType → SahaFunctionArguments →
    Option FilePosition → Except RuntimeError SahaObject

/-- Property of a class (lib side). Modelled from the spec (objects.rs is
not among the staged sources; the field list is the one populate_classes
fills in). -/
structure Property where
  name : String
  prop_type : SahaType
  default : Value
  is_static : Bool
  visibility : MemberVisibility
  value : Option Value

/-- ClassDefinition (lib side): static description of a class. The five
data fields are the ones populate_classes constructs; the
`create_new_instance_fn` field carries the instance-creation hook as a
function value. Modelled from the spec: `create_object_instance` calls the
class's `create_new_instance` hook with a fresh InstRef, the args and the
type args (objects.rs is not among the staged sources). -/
structure ClassDefinition where
  name : String
  fqname : String
  properties : HMap String Property
  implements : List String
  type_params : List Char
  create_new_instance_fn :
    InstRef → SahaFunctionArguments → List SahaType → Option FilePosition →
      Except RuntimeError SahaObject

/-- Instance-creation hook of a class (the Rust method
`ClassDefinition::create_new_instance`). -/
def ClassDefinition.create_new_instance (c : ClassDefinition) (instref : InstRef)
    (args : SahaFunctionArguments) (type_params : List SahaType)
    (create_pos : Option FilePosition) : Except RuntimeError SahaObject :=
  c.create_new_instance_fn instref args type_params create_pos

/-- LibBehaviorDefinition: placeholder for the behavior registry entry of
the lib-side symbol table. Modelled from the spec: a behavior is a named
set of method signatures (objects.rs is not among the staged sources); no
claim reads it. -/
structure LibBehaviorDefinition where
  name : String

/-- SymbolTable (symbol_table/mod.rs lines 25-78): the process-wide
registry. The Rust `Arc<Mutex<...>>` wrappers express the locking
discipline and are dropped in this sequential embedding. -/
structure SymbolTable where
  constants : HMap String Value
  functions : HMap String SahaCallable
  behaviors : HMap String LibBehaviorDefinition
  classes : HMap String ClassDefinition
  core_classes : HMap String CoreConstructorFn
  methods : HMap String SahaCallable
  instances : HMap InstRef SahaObject

/-- Embeds `SymbolTable::new`/`default` (symbol_table/mod.rs lines
80-98). -/
def SymbolTable.new : SymbolTable :=
  ⟨[], [], [], [], [], [], []⟩

/-- Embeds `SymbolTable::set_constants` (symbol_table/mod.rs lines
100-103). -/
def SymbolTable.set_constants (st : SymbolTable) (constants : HMap String Value) :
    SymbolTable :=
  { st with constants := constants }

/-- Embeds `SymbolTable::add_function` (symbol_table/mod.rs lines 106-111):
inserts under the callable's canonical name; the source carries a
FIXME that overrides are not prevented. -/
def SymbolTable.add_function (st : SymbolTable) (func : SahaCallable) : SymbolTable :=
  let fn_name := func.get_name
  { st with functions := ainsert st.functions fn_name func }

/-- Embeds `SymbolTable::add_method` (symbol_table/mod.rs lines 113-119):
inserts under `class#method`. -/
def SymbolTable.add_method (st : SymbolTable) (class_name : String)
    (method : SahaCallable) : SymbolTable :=
  let method_name := method.get_name
  let fq_method_name := class_name ++ "#" ++ method_name
  { st with methods := ainsert st.methods fq_method_name method }

/-- Embeds `SymbolTable::create_core_object_instance` (symbol_table/mod.rs
lines 158-186). The Rust code mints a fresh random UUID; the fresh
reference is supplied by the caller as `fresh`. Returns the updated table
with the result. -/
def SymbolTable.create_core_object_instance (st : SymbolTable) (fresh : InstRef)
    (class_name : String) (args : SahaFunctionArguments)
    (type_params : List SahaType) (additional_data : SahaFunctionArguments)
    (create_pos : Option FilePosition) : SymbolTable × Except RuntimeError InstRef :=
  let instref := fresh
  match alookup st.core_classes class_name with
  | none =>
    (st, .error ⟨"Cannot create instance of unknown class `" ++ class_name ++ "`",
      create_pos⟩)
  | some ctor =>
    match ctor instref args type_params additional_data create_pos with
    | .ok inst => ({ st with instances := ainsert st.instances instref inst }, .ok instref)
    | .error e => (st, .error e)

/-- Embeds `SymbolTable::create_object_instance` (symbol_table/mod.rs lines
123-155): try the userland classes map, on a miss fall back to the core
classes, register the created instance under the fresh reference and
return it as an Obj value. -/
def SymbolTable.create_object_instance (st : SymbolTable) (fresh : InstRef)
    (class_name : String) (args : SahaFunctionArguments)
    (type_params : List SahaType) (additional_data : SahaFunctionArguments)
    (create_pos : Option FilePosition) : SymbolTable × Except RuntimeError Value :=
  match alookup st.classes class_name with
  | none =>
    let (st, core_inst) :=
      st.create_core_object_instance fresh class_name args type_params
        additional_data create_pos
    match core_inst with
    | .error e => (st, .error e)
    | .ok r => (st, .ok (Value.ofObj r))
  | some cdef =>
    let instref := fresh
    match cdef.create_new_instance instref args type_params create_pos with
    | .error e => (st, .error e)
    | .ok inst =>
      ({ st with instances := ainsert st.instances instref inst },
        .ok (Value.ofObj instref))

/-- FunctionDefinition (parse-table side). Modelled from the spec: for each
declared function or method the declaration pass records source name,
canonical name, parameters, return type, body token slice, visibility and
static flag (parse_table.rs is not among the staged sources; these are the
fields the staged populate code reads). Equality is structural, as in the
Rust derived PartialEq used by validate_class_implements. -/
structure FunctionDefinition where
  source_name : String
  name : String
  parameters : SahaFunctionParamDefs
  return_type : SahaType
  body_tokens : List Token
  visibility : MemberVisibility
  is_static : Bool
  deriving DecidableEq

/-- PropertyDefinition (parse-table side). Modelled from the spec:
property definitions with defaults (parse_table.rs is not among the staged
sources; these are the fields generate_class_properties reads). -/
structure PropertyDefinition where
  name : String
  property_type : SahaType
  default : Value
  is_static : Bool
  visibility : MemberVisibility
  deriving DecidableEq

/-- BehaviorDefinition (parse-table side): a named set of declared method
signatures. Modelled from the spec (parse_table.rs is not among the staged
sources; validate_class_implements reads its name and methods map). -/
structure BehaviorDefinition where
  name : String
  methods : HMap String FunctionDefinition
  deriving DecidableEq

/-- ClassDefinition (parse-table side, `PTClassDefinition` at its use
site). Modelled from the spec: class declarations carry an implements
list, type-parameter names, property definitions and methods, plus the
class's source position for errors (parse_table.rs is not among the staged
sources; these are the fields the staged populate code reads). -/
structure PTClassDefinition where
  name : String
  source_name : String
  source_position : FilePosition
  properties : HMap String PropertyDefinition
  implements : List String
  type_params : List Char
  methods : HMap String FunctionDefinition
  deriving DecidableEq

/-- ParseTable: the declaration pass's product. Modelled from the spec: a
table of constants, functions, behaviors and classes (parse_table.rs is
not among the staged sources). -/
structure ParseTable where
  constants : HMap String Value
  functions : HMap String FunctionDefinition
  behaviors : HMap String BehaviorDefinition
  classes : HMap String PTClassDefinition

/-- Embeds the behavior-method loop of `validate_class_implements`
(parser/src/lib.rs lines 137-157): every method declared in the behavior
must exist on the class with a structurally equal definition. -/
def validate_behavior_methods (c_name : String) (c_pos : FilePosition)
    (c_methods : HMap String FunctionDefinition) (beh_name : String) :
    List (String × FunctionDefinition) → Except ParseError Unit
  | [] => .ok ()
  | (mname, method) :: rest =>
    if acontains c_methods mname = false then
      .error ⟨"Invalid behavior implementation on `" ++ c_name ++ "`, method `" ++
        mname ++ "` defined in behavior `" ++ beh_name ++ "` not found in class",
        some c_pos⟩
    else
      match alookup c_methods mname with
      | none => .error ⟨"unreachable", none⟩
      | some cmeth =>
        if cmeth ≠ method then
          .error ⟨"Invalid behavior implementation on `" ++ c_name ++ "`, method `" ++
            mname ++ "` has mismatching definition from behavior `" ++ beh_name ++ "`",
            some c_pos⟩
        else
          validate_behavior_methods c_name c_pos c_methods beh_name rest

/-- Embeds the implements loop of `validate_class_implements`
(parser/src/lib.rs lines 125-158). -/
def validate_class_implements_each (c : PTClassDefinition)
    (beh_defs : HMap String BehaviorDefinition) :
    List String → Except ParseError Unit
  | [] => .ok ()
  | i :: rest =>
    if acontains beh_defs i = false then
      .error ⟨"Invalid behavior implementation on `" ++ c.name ++ "`, no behavior `" ++
        i ++ "` defined", some c.source_position⟩
    else
      match alookup beh_defs i with
      | none => .error ⟨"unreachable", none⟩
      | some cbeh =>
        match validate_behavior_methods c.name c.source_position c.methods
            cbeh.name cbeh.methods with
        | .error e => .error e
        | .ok _ => validate_class_implements_each c beh_defs rest

/-- Embeds `validate_class_implements` (parser/src/lib.rs lines 122-161):
for every name in the class's implements list the behavior must exist and
every method it declares must exist on the class with an equal definition;
any violation is a ParseError at the class's source position. -/
def validate_class_implements (c : PTClassDefinition)
    (beh_defs : HMap String BehaviorDefinition) : Except ParseError Unit :=
  validate_class_implements_each c beh_defs c.implements

/-- Embeds the property loop of `generate_class_properties`
(parser/src/lib.rs lines 81-96). -/
def generate_class_properties_each :
    List (String × PropertyDefinition) → HMap String Property → HMap String Property
  | [], props => props
  | (_, pdef) :: rest, props =>
    generate_class_properties_each rest
      (ainsert props pdef.name
        ⟨pdef.name, pdef.property_type, pdef.default, pdef.is_static,
          pdef.visibility, none⟩)

/-- Embeds `generate_class_properties` (parser/src/lib.rs lines 81-96). -/
def generate_class_properties (c : PTClassDefinition) : HMap String Property :=
  generate_class_properties_each c.properties []

/-- Embeds the method loop of `generate_class_methods` (parser/src/lib.rs
lines 98-120): each method body is parsed into an AST and a UserFunction
is stored under the method's source name. -/
def generate_class_methods_each (fuel : Nat) :
    List (String × FunctionDefinition) → HMap String SahaCallable →
      Outcome ParseError (HMap String SahaCallable)
  | [], methods => .ok methods
  | (_, fndef) :: rest, methods =>
    match start_parse fuel fndef.body_tokens with
    | .err e => .err e
    | .panic m => .panic m
    | .fuelOut => .fuelOut
    | .ok ast _ =>
      generate_class_methods_each fuel rest
        (ainsert methods fndef.source_name
          (.user ⟨fndef.source_name, fndef.name, fndef.parameters,
            fndef.return_type, ast, fndef.visibility, fndef.is_static⟩))

/-- Embeds `generate_class_methods` (parser/src/lib.rs lines 98-120). -/
def generate_class_methods (fuel : Nat) (c : PTClassDefinition) :
    Outcome ParseError (HMap String SahaCallable) :=
  generate_class_methods_each fuel c.methods []

/-- Registers every generated method of a class, embedding the add_method
loop of `populate_classes` (parser/src/lib.rs lines 185-187). -/
def add_methods_each (class_name : String) :
    List (String × SahaCallable) → SymbolTable → SymbolTable
  | [], st => st
  | (_, m) :: rest, st => add_methods_each class_name rest (st.add_method class_name m)

/-- Default instance-creation hook installed for a populated class.
Modelled from the spec: the hook creates an instance exposing the class's
fully qualified name, implements list and named type instantiated at the
supplied type arguments (objects.rs is not among the staged sources). -/
def default_create_new_instance (cdef_name : String) (fqname : String)
    (implements : List String) : InstRef → SahaFunctionArguments → List SahaType →
      Option FilePosition → Except RuntimeError SahaObject :=
  fun _ _ type_params _ => .ok ⟨fqname, implements, SahaType.name cdef_name type_params⟩

/-- Embeds the class loop of `populate_classes` (parser/src/lib.rs lines
169-188): validate the implements lists, generate methods and properties,
insert the class definition and register its methods. -/
def populate_classes_each (fuel : Nat)
    (behaviors : HMap String BehaviorDefinition) :
    List (String × PTClassDefinition) → SymbolTable → Outcome ParseError SymbolTable
  | [], st => .ok st
  | (cname, c) :: rest, st =>
    match validate_class_implements c behaviors with
    | .error e => .err e
    | .ok _ =>
      match generate_class_methods fuel c with
      | .err e => .err e
      | .panic m => .panic m
      | .fuelOut => .fuelOut
      | .ok methods =>
        let props := generate_class_properties c
        let cdef : ClassDefinition :=
          ⟨c.source_name, c.name, props, c.implements, c.type_params,
            default_create_new_instance c.source_name c.name c.implements⟩
        let st := { st with classes := ainsert st.classes cname cdef }
        let st := add_methods_each cname methods st
        populate_classes_each fuel behaviors rest st

/-- Embeds `populate_classes` (parser/src/lib.rs lines 163-191); the global
symbol table is passed and returned explicitly. -/
def populate_classes (fuel : Nat) (parse_table : ParseTable) (st : SymbolTable) :
    Outcome ParseError SymbolTable :=
  populate_classes_each fuel parse_table.behaviors parse_table.classes st


/-- Shorthand for the unknown file position used by the parser fixtures. -/
def up : FilePosition := FilePosition.unknown

/-- Integer-literal expression at the unknown position. -/
def intLit (n : Int) : Expression :=
  Expression.mk up (.literalValue (Value.ofInt n))

/-- Binary-operation expression at the unknown position. -/
def binE (l : Expression) (k : BinOpKind) (r : Expression) : Expression :=
  Expression.mk up (.binaryOperation l ⟨up, k, true⟩ r)

/-- Parameter `b` of type int with the non-Void default value 5. -/
def c1_param : FunctionParameter := ⟨"b", SahaType.int, Value.ofInt 5⟩

/-- Single int parameter `x` without a default. -/
def c3_params : SahaFunctionParamDefs :=
  [("x", ⟨"x", SahaType.int, Value.void⟩)]

/-- An argument map supplying `x` plus an undeclared extra key `y`. -/
def c3_args : SahaFunctionArguments :=
  [("x", Value.ofInt 1), ("y", Value.ofInt 2)]

/-- Single int parameter `x`, for the C3 witness. -/
def c3w_params : SahaFunctionParamDefs :=
  [("x", ⟨"x", SahaType.int, Value.void⟩)]

/-- A single unnamed argument, for the C3 witness. -/
def c3w_args : SahaFunctionArguments := [("", Value.ofInt 1)]

/-- A core callable named `f` returning int. -/
def c5_f1 : CoreFunction :=
  ⟨"f", [], SahaType.int, fun _ => Except.ok Value.void, true, false⟩

/-- A second core callable also named `f`, returning str. -/
def c5_f2 : CoreFunction :=
  ⟨"f", [], SahaType.str, fun _ => Except.ok Value.void, true, false⟩

/-- A core function declaring return type `Bar` whose body returns an Obj value. -/
def c2_core : CoreFunction :=
  ⟨"f", [], SahaType.name "Bar" [], fun _ => Except.ok (Value.ofObj 1), true, false⟩

/-- An instance store holding one `Foo` instance implementing `Bar`. -/
def c2_instances : HMap InstRef SahaObject :=
  [(1, ⟨"Foo", ["Bar"], SahaType.name "Bar" []⟩)]

/-- A user function returning `Bar`, for the C2 witness. -/
def c2w_uf : UserFunction :=
  ⟨"g", "g", [], SahaType.name "Bar" [], Ast.mk (Block.mk FilePosition.unknown []),
    MemberVisibility.pub, false⟩

/-- An evaluator returning the object value 7, for the C2 witness. -/
def c2w_av : Ast → SahaFunctionArguments → Except RuntimeError Value :=
  fun _ _ => Except.ok (Value.ofObj 7)

/-- Instance store for the C2 witness. -/
def c2w_instances : HMap InstRef SahaObject :=
  [(7, ⟨"Foo", ["Bar"], SahaType.name "Bar" []⟩)]

/-- Method `baz(): int` declared by the behavior `Bar`. -/
def c8_baz : FunctionDefinition :=
  ⟨"baz", "baz", [], SahaType.int, [], MemberVisibility.pub, false⟩

/-- Behavior `Bar` declaring the method `baz`. -/
def c8_bar : BehaviorDefinition := ⟨"Bar", [("baz", c8_baz)]⟩

/-- Source position of the class `Foo`. -/
def c8_pos : FilePosition := ⟨"main.saha", 3, 1⟩

/-- Class `Foo` implementing `Bar` but omitting `baz`. -/
def c8_foo : PTClassDefinition :=
  ⟨"Foo", "Foo", c8_pos, [], ["Bar"], [], []⟩

/-- The behavior table holding `Bar`. -/
def c8_behs : HMap String BehaviorDefinition := [("Bar", c8_bar)]

/-- A parse table holding `Bar` and `Foo`. -/
def c8_pt : ParseTable := ⟨[], [], c8_behs, [("Foo", c8_foo)]⟩

/-- Token sequence of `(1 + 1 + 2 * 3 - 1);`, as in the repository's test. -/
def c4_tokens : List Token :=
  [Token.parensOpen up, Token.integerValue up 1, Token.opAdd up, Token.integerValue up 1,
   Token.opAdd up, Token.integerValue up 2, Token.opMul up, Token.integerValue up 3,
   Token.opSub up, Token.integerValue up 1, Token.parensClose up, Token.endStatement up,
   Token.eob]

/-- The tree the parser produces: 1 + (1 + ((2 * 3) - 1)). -/
def c4_right : Expression :=
  binE (intLit 1) .add
    (binE (intLit 1) .add
      (binE (binE (intLit 2) .mul (intLit 3)) .sub (intLit 1)))

/-- The tree the claim expects: ((1 + 1) + ((2 * 3) - 1)). -/
def c4_claimed : Expression :=
  binE (binE (intLit 1) .add (intLit 1)) .add
    (binE (binE (intLit 2) .mul (intLit 3)) .sub (intLit 1))

/-- The parsed AST: one expression statement holding the produced tree. -/
def c4_ast : Ast :=
  Ast.mk (Block.mk up [Statement.mk up (.expression c4_right)])

/-- Token sequence of `new List<int>()`; the type keyword `int` is its own
token variant (the one parse_type_declaration consumes as
\"typeinteger\"). -/
def c6_tokens : List Token :=
  [Token.kwNew up, Token.name up "List" "List", Token.opLt up, Token.typeInteger up,
   Token.opGt up, Token.parensOpen up, Token.parensClose up, Token.eob]

/-- The parsed expression: NewInstance of List with type argument Int. -/
def c6_expected : Expression :=
  Expression.mk up (.newInstance (Identifier.mk up "List" [])
    (Expression.mk up (.callableArgs [])) [SahaType.int])

/-- The expression the claim expects, with type argument Name(\"int\", []). -/
def c6_claimed : Expression :=
  Expression.mk up (.newInstance (Identifier.mk up "List" [])
    (Expression.mk up (.callableArgs [])) [SahaType.name "int" []])

/-- The parsed AST for the new-instance expression. -/
def c6_ast : Ast :=
  Ast.mk (Block.mk up [Statement.mk up (.expression c6_expected)])

/-- Token sequence of the one-element list literal [1]. -/
def c10w_tokens : List Token :=
  [Token.braceOpen up, Token.integerValue up 1, Token.braceClose up, Token.eob]

/-- Removing one key leaves lookups of other keys unchanged. -/
theorem alookup_aremove_ne {α : Type} (l : HMap String α) (k k' : String) (hne : k' ≠ k) :
    alookup (aremove l k) k' = alookup l k' := by
  induction l with
  | nil => rfl
  | cons p rest ih =>
    obtain ⟨a, b⟩ := p
    by_cases hak : a = k
    · subst hak
      have hk' : ¬(a = k') := fun hh => hne (hh ▸ rfl)
      simp [aremove, alookup, hk', ih]
    · simp [aremove, alookup, hak, ih]

/-- Key presence coincides with membership in the key list. -/
theorem acontains_iff_mem {α : Type} (l : HMap String α) (k : String) :
    acontains l k = true ↔ k ∈ akeys l := by
  induction l with
  | nil => simp [acontains, alookup, akeys]
  | cons p rest ih =>
    obtain ⟨a, b⟩ := p
    by_cases hak : a = k
    · simp [acontains, alookup, akeys, hak]
    · simp only [acontains, alookup, akeys, List.map_cons, List.mem_cons, hak, if_false] at ih ⊢
      rw [ih]
      constructor
      · exact fun hh => Or.inr hh
      · rintro (hh | hh)
        · exact absurd hh.symm hak
        · exact hh

/-- Key set of a map after an insert. -/
theorem mem_akeys_ainsert {α : Type} (l : HMap String α) (k k' : String) (v : α) :
    k' ∈ akeys (ainsert l k v) ↔ (k' ∈ akeys l ∨ k' = k) := by
  induction l with
  | nil => simp [ainsert, akeys]
  | cons p rest ih =>
    obtain ⟨a, b⟩ := p
    by_cases hak : a = k
    · subst hak
      simp [ainsert, akeys]
      tauto
    · simp [ainsert, akeys, hak] at ih ⊢
      tauto

/-- Key set of a map after a removal. -/
theorem mem_akeys_aremove {α : Type} (l : HMap String α) (k k' : String) :
    k' ∈ akeys (aremove l k) ↔ (k' ∈ akeys l ∧ k' ≠ k) := by
  induction l with
  | nil => simp [aremove, akeys]
  | cons p rest ih =>
    obtain ⟨a, b⟩ := p
    by_cases hak : a = k
    · subst hak
      simp [aremove, akeys] at ih ⊢
      rw [ih]
      constructor
      · exact fun hh => ⟨Or.inr hh.1, hh.2⟩
      · rintro ⟨hh | hh, hne⟩
        · exact absurd hh hne
        · exact ⟨hh, hne⟩
    · simp [aremove, akeys, hak] at ih ⊢
      rw [ih]
      constructor
      · rintro (hh | hh)
        · exact ⟨Or.inl hh, hh ▸ hak⟩
        · exact ⟨Or.inr hh.1, hh.2⟩
      · rintro ⟨hh | hh, hne⟩
        · exact Or.inl hh
        · exact Or.inr ⟨hh, hne⟩

/-- The general validation loop returns the argument map unchanged on success. -/
theorem validate_args_each_ok (plist : List (String × FunctionParameter))
    (args : SahaFunctionArguments) (pos : Option FilePosition) (m : SahaFunctionArguments)
    (h : validate_args_each plist args pos = Outcome.ok m) : m = args := by
  induction plist with
  | nil => cases h; rfl
  | cons p rest ih =>
    obtain ⟨nm, prm⟩ := p
    unfold validate_args_each at h
    split at h
    · cases h
    · cases hlk : alookup args nm <;> rw [hlk] at h
      · cases h
      · split at h
        · cases h
        · split at h
          · cases h
          · exact ih h

/-- Successful single-parameter validation returns either the argument map
itself, or the map with the unnamed argument rebound to the first declared
parameter's name. -/
theorem validate_single_ok_shape (params : SahaFunctionParamDefs)
    (args : SahaFunctionArguments) (pos : Option FilePosition)
    (m : SahaFunctionArguments)
    (h : validate_single_param_args params args pos = Outcome.ok m) :
    m = args ∨
      ∃ p0 prm v, params.head? = some (p0, prm) ∧ alookup args "" = some v ∧
        m = aremove (ainsert args p0 v) "" := by
  unfold validate_single_param_args at h
  dsimp only at h
  by_cases hs : acontains args "self" = true
  · rw [if_pos hs] at h
    cases hh : params.head? with
    | none => rw [hh] at h; simp at h
    | some pr =>
      rw [hh] at h
      obtain ⟨p0, prm⟩ := pr
      dsimp only at h
      split at h
      · simp at h
      · cases hhd : (aremove args "self").head? with
        | none => rw [hhd] at h; simp at h
        | some pa =>
          rw [hhd] at h
          obtain ⟨k0, arg⟩ := pa
          dsimp only at h
          split at h
          · simp at h
          · split at h
            next hc =>
              cases hlk : alookup (aremove args "self") "" with
              | none => rw [hlk] at h; simp at h
              | some v =>
                rw [hlk] at h
                dsimp only at h
                cases h
                right
                refine ⟨p0, prm, v, rfl, ?_, rfl⟩
                rw [← alookup_aremove_ne args "self" "" (by decide)]
                exact hlk
            next hc =>
              cases h
              left
              rfl
  · rw [if_neg hs] at h
    cases hh : params.head? with
    | none => rw [hh] at h; simp at h
    | some pr =>
      rw [hh] at h
      obtain ⟨p0, prm⟩ := pr
      dsimp only at h
      split at h
      · simp at h
      · cases hhd : args.head? with
        | none => rw [hhd] at h; simp at h
        | some pa =>
          rw [hhd] at h
          obtain ⟨k0, arg⟩ := pa
          dsimp only at h
          split at h
          · simp at h
          · split at h
            next hc =>
              cases hlk : alookup args "" with
              | none => rw [hlk] at h; simp at h
              | some v =>
                rw [hlk] at h
                dsimp only at h
                cases h
                right
                exact ⟨p0, prm, v, rfl, rfl, rfl⟩
            next hc =>
              cases h
              left
              rfl

/-- Membership reading of `List.contains` over an appended singleton. -/
theorem contains_append_singleton (l : List String) (a b : String) :
    (l ++ [b]).contains a = true ↔ (a ∈ l ∨ a = b) := by
  simp

/-- C1: for a declared parameter that is absent from the arguments and
whose default is not Void-kinded, general-path validation does not accept
the call with the default supplying the value, as the spec states: it
panics unwrapping the missing argument (types/functions.rs line 434), and
no default value is ever inserted into the validated map. -/
theorem c1_missing_default_arg_panics :
    c1_param.default.kind ≠ SahaType.void ∧
    validate_args [("b", c1_param)] [] none = Outcome.panic unwrapNoneMsg :=
  ⟨by decide, rfl⟩

/-- C3 counterexample: validation accepts an argument map with an extra key
`y` and returns it unchanged, so the validated key set is not the declared
parameter-name set. -/
theorem c3_counterexample :
    validate_args c3_params c3_args none = Outcome.ok c3_args ∧
    "y" ∈ akeys c3_args ∧ "y" ∉ akeys c3_params := by
  refine ⟨rfl, ?_, ?_⟩ <;> decide

/-- C3 (amended): a validated argument map is the supplied argument map
itself, except that on the single-parameter path with an unnamed argument
(key \"\") that key is removed and the first declared parameter's name is
bound to its value. The key set is therefore the argument key set (with
\"\" replaced by that first parameter name), not necessarily the declared
parameter names. -/
theorem c3_validated_keys (params : SahaFunctionParamDefs)
    (args : SahaFunctionArguments) (pos : Option FilePosition)
    (m : SahaFunctionArguments)
    (h : validate_args params args pos = Outcome.ok m) :
    m = args ∨
      ∃ p0 prm v, params.head? = some (p0, prm) ∧ alookup args "" = some v ∧
        m = aremove (ainsert args p0 v) "" ∧
        (∀ k, k ∈ akeys m ↔ ((k ∈ akeys args ∨ k = p0) ∧ k ≠ "")) := by
  unfold validate_args at h
  split at h
  · rcases validate_single_ok_shape params args pos m h with hc | ⟨p0, prm, v, hh, hlk, hm⟩
    · exact Or.inl hc
    · refine Or.inr ⟨p0, prm, v, hh, hlk, hm, fun k => ?_⟩
      rw [hm]
      rw [mem_akeys_aremove, mem_akeys_ainsert]
  · exact Or.inl (validate_args_each_ok params args pos m h)

/-- C3 witness: the amended key-set theorem at a concrete unnamed call. -/
theorem c3_witness :
    [("x", Value.ofInt 1)] = c3w_args ∨
      ∃ p0 prm v, c3w_params.head? = some (p0, prm) ∧ alookup c3w_args "" = some v ∧
        [("x", Value.ofInt 1)] = aremove (ainsert c3w_args p0 v) "" ∧
        (∀ k, k ∈ akeys [("x", Value.ofInt 1)] ↔
          ((k ∈ akeys c3w_args ∨ k = p0) ∧ k ≠ "")) :=
  c3_validated_keys c3w_params c3w_args none [("x", Value.ofInt 1)] rfl

/-- C9: a call with exactly one non-self argument (or one argument plus
self) is always routed to the single-parameter validation path, regardless
of how many parameters are declared; with an empty declared parameter map
that path panics unwrapping the missing first parameter instead of
returning a RuntimeError. -/
theorem c9_empty_params_single_arg_panics :
    (∀ (args : SahaFunctionArguments) (pos : Option FilePosition),
      ((args.length = 1 ∧ acontains args "self" = false) ∨
        (args.length = 2 ∧ acontains args "self" = true)) →
      validate_args [] args pos = Outcome.panic unwrapNoneMsg) ∧
    (∀ (params : SahaFunctionParamDefs) (args : SahaFunctionArguments)
        (pos : Option FilePosition),
      ((args.length = 1 ∧ acontains args "self" = false) ∨
        (args.length = 2 ∧ acontains args "self" = true)) →
      validate_args params args pos = validate_single_param_args params args pos) := by
  constructor
  · intro args pos hroute
    unfold validate_args
    rw [if_pos hroute]
    unfold validate_single_param_args
    rfl
  · intro params args pos hroute
    unfold validate_args
    rw [if_pos hroute]

/-- C9 witness: the panic at a concrete one-argument call. -/
theorem c9_witness :
    validate_args [] [("a", Value.ofInt 1)] none = Outcome.panic unwrapNoneMsg :=
  c9_empty_params_single_arg_panics.1 [("a", Value.ofInt 1)] none (Or.inl ⟨rfl, rfl⟩)

/-- C5: `add_function` does not reject re-insertion under an
already-present canonical name (the source carries a FIXME to prevent
overrides): after two successive `add_function` calls with the same name
the second binding has replaced the first. -/
theorem c5_add_function_override :
    alookup ((SymbolTable.new.add_function (SahaCallable.core c5_f1)).add_function
        (SahaCallable.core c5_f2)).functions "f" = some (SahaCallable.core c5_f2) ∧
    (SahaCallable.core c5_f2).get_return_type ≠ (SahaCallable.core c5_f1).get_return_type :=
  ⟨rfl, by decide⟩

/-- A successful core-instance creation returns the caller-supplied fresh
reference and registers the instance under it. -/
theorem create_core_object_instance_ok (st : SymbolTable) (fresh : InstRef)
    (cname : String) (args : SahaFunctionArguments) (tps : List SahaType)
    (add : SahaFunctionArguments) (pos : Option FilePosition)
    (stc : SymbolTable) (r : InstRef)
    (h : st.create_core_object_instance fresh cname args tps add pos = (stc, Except.ok r)) :
    r = fresh ∧ ∃ inst, stc.instances = ainsert st.instances fresh inst := by
  unfold SymbolTable.create_core_object_instance at h
  cases hcc : alookup st.core_classes cname with
  | none => rw [hcc] at h; simp at h
  | some ctor =>
    rw [hcc] at h
    dsimp only at h
    cases hr : ctor fresh args tps add pos with
    | error e => rw [hr] at h; simp at h
    | ok inst =>
      rw [hr] at h
      dsimp only at h
      cases h
      exact ⟨rfl, inst, rfl⟩

/-- C7: `create_object_instance` tries the userland classes map first and
only on a miss the core classes map (the result is unchanged by emptying
the core map when the class exists); when the name is in neither map it
returns a RuntimeError reading "Cannot create instance of unknown class
`X`" carrying the provided position; and on success the returned value is
the Obj-kinded value of the fresh InstRef under which the new instance was
registered in the instances map. -/
theorem c7_create_object_instance :
    (∀ (st : SymbolTable) (fresh : InstRef) (cname : String)
        (args : SahaFunctionArguments) (tps : List SahaType)
        (add : SahaFunctionArguments) (pos : Option FilePosition),
      alookup st.classes cname = none → alookup st.core_classes cname = none →
      st.create_object_instance fresh cname args tps add pos =
        (st, Except.error
          ⟨"Cannot create instance of unknown class `" ++ cname ++ "`", pos⟩)) ∧
    (∀ (st : SymbolTable) (fresh : InstRef) (cname : String)
        (args : SahaFunctionArguments) (tps : List SahaType)
        (add : SahaFunctionArguments) (pos : Option FilePosition)
        (cdef : ClassDefinition) (cc2 : HMap String CoreConstructorFn),
      alookup st.classes cname = some cdef →
      (st.create_object_instance fresh cname args tps add pos).2 =
        (({ st with core_classes := cc2 } : SymbolTable).create_object_instance
          fresh cname args tps add pos).2 ∧
      (st.create_object_instance fresh cname args tps add pos).1.instances =
        (({ st with core_classes := cc2 } : SymbolTable).create_object_instance
          fresh cname args tps add pos).1.instances) ∧
    (∀ (st : SymbolTable) (fresh : InstRef) (cname : String)
        (args : SahaFunctionArguments) (tps : List SahaType)
        (add : SahaFunctionArguments) (pos : Option FilePosition)
        (st2 : SymbolTable) (v : Value),
      st.create_object_instance fresh cname args tps add pos = (st2, Except.ok v) →
      v = Value.ofObj fresh ∧ ∃ inst, st2.instances = ainsert st.instances fresh inst) := by
  refine ⟨?_, ?_, ?_⟩
  · intro st fresh cname args tps add pos h1 h2
    unfold SymbolTable.create_object_instance
    rw [h1]
    unfold SymbolTable.create_core_object_instance
    rw [h2]
  · intro st fresh cname args tps add pos cdef cc2 hc
    unfold SymbolTable.create_object_instance
    rw [hc]
    dsimp only
    cases hr : cdef.create_new_instance fresh args tps pos with
    | error e => exact ⟨rfl, rfl⟩
    | ok inst => exact ⟨rfl, rfl⟩
  · intro st fresh cname args tps add pos st2 v h
    unfold SymbolTable.create_object_instance at h
    cases hcl : alookup st.classes cname with
    | none =>
      rw [hcl] at h
      dsimp only at h
      cases hco : st.create_core_object_instance fresh cname args tps add pos with
      | mk stc rc =>
        rw [hco] at h
        dsimp only at h
        cases rc with
        | error e => simp at h
        | ok r =>
          dsimp only at h
          injection h with h1 h2
          injection h2 with h3
          obtain ⟨hrf, inst, hinst⟩ :=
            create_core_object_instance_ok st fresh cname args tps add pos stc r hco
          refine ⟨?_, inst, ?_⟩
          · rw [← h3, hrf]
          · rw [← h1]
            exact hinst
    | some cdef =>
      rw [hcl] at h
      dsimp only at h
      cases hr : cdef.create_new_instance fresh args tps pos with
      | error e => rw [hr] at h; simp at h
      | ok inst =>
        rw [hr] at h
        dsimp only at h
        injection h with h1 h2
        injection h2 with h3
        refine ⟨h3.symm, inst, ?_⟩
        rw [← h1]

/-- C7 witness: the unknown-class error at a concrete empty table. -/
theorem c7_witness :
    SymbolTable.new.create_object_instance 0 "X" [] [] [] none =
      (SymbolTable.new, Except.error
        ⟨"Cannot create instance of unknown class `X`", none⟩) :=
  c7_create_object_instance.1 SymbolTable.new 0 "X" [] [] [] none rfl rfl

/-- C2 counterexample: a core function declaring return type `Bar` whose
body returns an instance whose implements list contains `Bar` still fails
with "Return type mismatch": CoreFunction::call compares the value's Obj
kind against the Name return type (types/functions.rs line 165), which can
never be equal. -/
theorem c2_counterexample :
    "Bar" ∈ (⟨"Foo", ["Bar"], SahaType.name "Bar" []⟩ : SahaObject).implements ∧
    alookup c2_instances 1 = some ⟨"Foo", ["Bar"], SahaType.name "Bar" []⟩ ∧
    c2_core.return_type = SahaType.name "Bar" [] ∧
    c2_core.fn_ref [] = Except.ok (Value.ofObj 1) ∧
    c2_core.call c2_instances [] none [] none = Outcome.err
      ⟨"Return type mismatch for `f`, expected `Name(\"Bar\", [])` but received `Obj`",
        none⟩ := by
  refine ⟨by decide, rfl, rfl, rfl, rfl⟩

/-- C2 (amended): for a user function returning an Obj-kinded value with a
class/behavior return type R, the call succeeds exactly when the
instance's implements list contains R (or R is its fully qualified class
name) AND the instance's named type structurally equals the declared
return type, and otherwise fails with a "Return type mismatch"
RuntimeError; a core function in the same situation always fails with
"Return type mismatch", because its check compares the value's Obj kind
with the Name return type. -/
theorem c2_return_type_enforcement :
    (∀ (f : UserFunction) (st_inst : HMap InstRef SahaObject)
        (av : Ast → SahaFunctionArguments → Except RuntimeError Value)
        (args : SahaFunctionArguments) (pos : Option FilePosition)
        (validated : SahaFunctionArguments) (res : Value) (oref : InstRef)
        (inst : SahaObject) (R : String) (tps : List SahaType),
      validate_args f.params args pos = Outcome.ok validated →
      av f.ast validated = Except.ok res →
      res.kind = SahaType.obj →
      f.return_type = SahaType.name R tps →
      res.obj = some oref →
      alookup st_inst oref = some inst →
      ((f.call st_inst av args none [] pos = Outcome.ok res ↔
        ((R ∈ inst.implements ∨ R = inst.fq_name) ∧
          SahaType.name R tps = inst.named_type)) ∧
       (¬((R ∈ inst.implements ∨ R = inst.fq_name) ∧
            SahaType.name R tps = inst.named_type) →
         f.call st_inst av args none [] pos = Outcome.err
           ⟨"Return type mismatch for `" ++ f.name ++ "`, expected `" ++
             (SahaType.name R tps).debugStr ++ "` but received `\"" ++
             inst.fq_name ++ "\"`", pos⟩))) ∧
    (∀ (f : CoreFunction) (st_inst : HMap InstRef SahaObject)
        (args : SahaFunctionArguments) (pos : Option FilePosition)
        (validated : SahaFunctionArguments) (res : Value) (oref : InstRef)
        (inst : SahaObject) (R : String) (tps : List SahaType),
      validate_args f.params args pos = Outcome.ok validated →
      f.fn_ref validated = Except.ok res →
      res.kind = SahaType.obj →
      f.return_type = SahaType.name R tps →
      res.obj = some oref →
      alookup st_inst oref = some inst →
      f.call st_inst args none [] pos = Outcome.err
        ⟨"Return type mismatch for `" ++ f.name ++ "`, expected `" ++
          (SahaType.name R tps).debugStr ++ "` but received `" ++ "Obj" ++ "`",
          pos⟩) := by
  constructor
  · intro f st_inst av args pos validated res oref inst R tps hval hav hkind hret hobj hinst
    unfold UserFunction.call
    rw [hval]
    dsimp only
    rw [hav, hret]
    dsimp only
    rw [hkind]
    dsimp only
    rw [hobj]
    dsimp only
    rw [hinst]
    dsimp only [SahaObject.get_implements, SahaObject.get_fully_qualified_class_name,
      SahaObject.get_named_type]
    constructor
    · by_cases hcond : (inst.implements ++ [inst.fq_name]).contains R = false ∨
          SahaType.name R tps ≠ inst.named_type
      · rw [if_pos hcond]
        constructor
        · intro hok
          cases hok
        · intro hrhs
          exfalso
          rcases hcond with hcf | hty
          · have : ¬((inst.implements ++ [inst.fq_name]).contains R = true) := by
              rw [hcf]
              simp
            rw [contains_append_singleton] at this
            exact this hrhs.1
          · exact hty hrhs.2
      · rw [if_neg hcond]
        push_neg at hcond
        obtain ⟨hcf, hty⟩ := hcond
        have hmem : (R ∈ inst.implements ∨ R = inst.fq_name) := by
          rw [← contains_append_singleton]
          cases hcc : (inst.implements ++ [inst.fq_name]).contains R
          · exact absurd hcc hcf
          · rfl
        exact ⟨fun _ => ⟨hmem, hty⟩, fun _ => rfl⟩
    · intro hrhs
      have hcond : (inst.implements ++ [inst.fq_name]).contains R = false ∨
          SahaType.name R tps ≠ inst.named_type := by
        by_contra hcon
        push_neg at hcon
        obtain ⟨hcf, hty⟩ := hcon
        apply hrhs
        constructor
        · rw [← contains_append_singleton]
          cases hcc : (inst.implements ++ [inst.fq_name]).contains R
          · exact absurd hcc hcf
          · rfl
        · exact hty
      rw [if_pos hcond]
  · intro f st_inst args pos validated res oref inst R tps hval hfn hkind hret hobj hinst
    unfold CoreFunction.call
    rw [hval]
    dsimp only
    rw [hfn, hret]
    dsimp only
    rw [hkind]
    dsimp only
    rw [hobj]
    dsimp only
    rw [hinst]
    dsimp only [SahaObject.get_implements, SahaObject.get_fully_qualified_class_name]
    have hcond : (inst.implements ++ [inst.fq_name]).contains R = false ∨
        SahaType.obj ≠ SahaType.name R tps := by
      right
      simp
    rw [if_pos hcond]
    rfl

/-- C2 witness: a concrete conforming user-function call succeeds. -/
theorem c2_witness :
    c2w_uf.call c2w_instances c2w_av [] none [] none = Outcome.ok (Value.ofObj 7) :=
  (c2_return_type_enforcement.1 c2w_uf c2w_instances c2w_av [] none [] (Value.ofObj 7) 7
    ⟨"Foo", ["Bar"], SahaType.name "Bar" []⟩ "Bar" [] rfl rfl rfl rfl rfl rfl).1.mpr
    ⟨Or.inl (by decide), rfl⟩

/-- Behavior-method validation errors carry the class's source position. -/
theorem validate_behavior_methods_err_pos (cn : String) (cp : FilePosition)
    (cm : HMap String FunctionDefinition) (bn : String) :
    ∀ (l : List (String × FunctionDefinition)) (e : ParseError),
      validate_behavior_methods cn cp cm bn l = Except.error e →
      e.pos = some cp := by
  intro l
  induction l with
  | nil => intro e h; cases h
  | cons p rest ih =>
    intro e h
    obtain ⟨mname, method⟩ := p
    unfold validate_behavior_methods at h
    split at h
    · cases h
      rfl
    · rename_i hcont
      cases hlk : alookup cm mname with
      | none =>
        exfalso
        apply hcont
        simp [acontains, hlk]
      | some cmeth =>
        rw [hlk] at h
        dsimp only at h
        split at h
        · cases h
          rfl
        · exact ih e h

/-- Implements validation errors carry the class's source position. -/
theorem validate_class_implements_each_err_pos (c : PTClassDefinition)
    (beh_defs : HMap String BehaviorDefinition) :
    ∀ (l : List String) (e : ParseError),
      validate_class_implements_each c beh_defs l = Except.error e →
      e.pos = some c.source_position := by
  intro l
  induction l with
  | nil => intro e h; cases h
  | cons i rest ih =>
    intro e h
    unfold validate_class_implements_each at h
    split at h
    · cases h
      rfl
    · rename_i hcont
      cases hlk : alookup beh_defs i with
      | none =>
        exfalso
        apply hcont
        simp [acontains, hlk]
      | some cbeh =>
        rw [hlk] at h
        dsimp only at h
        split at h
        · rename_i e2 heq2
          cases h
          exact validate_behavior_methods_err_pos c.name c.source_position c.methods
            cbeh.name cbeh.methods e heq2
        · exact ih e h

/-- Behavior-method validation succeeds exactly when every method declared
in the behavior exists on the class with an equal definition. -/
theorem validate_behavior_methods_ok_iff (cn : String) (cp : FilePosition)
    (cm : HMap String FunctionDefinition) (bn : String) :
    ∀ (l : List (String × FunctionDefinition)),
      (validate_behavior_methods cn cp cm bn l = Except.ok () ↔
        ∀ p ∈ l, alookup cm p.1 = some p.2) := by
  intro l
  induction l with
  | nil => simp [validate_behavior_methods]
  | cons p rest ih =>
    obtain ⟨mname, method⟩ := p
    unfold validate_behavior_methods
    split
    · rename_i hcont
      have hnone : alookup cm mname = none := by
        cases hlk : alookup cm mname with
        | none => rfl
        | some x => rw [acontains, hlk] at hcont; cases hcont
      constructor
      · intro h
        cases h
      · intro h
        have := h (mname, method) (by simp)
        rw [hnone] at this
        cases this
    · rename_i hcont
      cases hlk : alookup cm mname with
      | none =>
        exfalso
        apply absurd hcont
        simp [acontains, hlk]
      | some cmeth =>
        dsimp only
        split
        · rename_i hne
          constructor
          · intro h
            cases h
          · intro h
            have := h (mname, method) (by simp)
            rw [hlk] at this
            injection this with hx
            exact absurd hx hne
        · rename_i hne
          rw [not_not] at hne
          subst hne
          rw [ih]
          constructor
          · intro h q hq
            rcases List.mem_cons.mp hq with hq | hq
            · subst hq
              exact hlk
            · exact h q hq
          · intro h q hq
            exact h q (List.mem_cons_of_mem _ hq)

/-- Implements validation succeeds exactly when every implemented behavior
exists and every method it declares exists on the class unchanged. -/
theorem validate_class_implements_each_ok_iff (c : PTClassDefinition)
    (beh_defs : HMap String BehaviorDefinition) :
    ∀ (l : List String),
      (validate_class_implements_each c beh_defs l = Except.ok () ↔
        ∀ i ∈ l, ∃ bd, alookup beh_defs i = some bd ∧
          ∀ p ∈ bd.methods, alookup c.methods p.1 = some p.2) := by
  intro l
  induction l with
  | nil => simp [validate_class_implements_each]
  | cons i rest ih =>
    unfold validate_class_implements_each
    split
    · rename_i hcont
      have hnone : alookup beh_defs i = none := by
        cases hlk : alookup beh_defs i with
        | none => rfl
        | some x => rw [acontains, hlk] at hcont; cases hcont
      constructor
      · intro h
        cases h
      · intro h
        obtain ⟨bd, hbd, _⟩ := h i (by simp)
        rw [hnone] at hbd
        cases hbd
    · rename_i hcont
      cases hlk : alookup beh_defs i with
      | none =>
        exfalso
        apply absurd hcont
        simp [acontains, hlk]
      | some cbeh =>
        dsimp only
        split
        · rename_i e2 heq2
          constructor
          · intro h
            cases h
          · intro h
            obtain ⟨bd, hbd, hms⟩ := h i (by simp)
            rw [hlk] at hbd
            injection hbd with hbd
            subst hbd
            have hok := (validate_behavior_methods_ok_iff c.name c.source_position
              c.methods cbeh.name cbeh.methods).mpr hms
            rw [heq2] at hok
            cases hok
        · rename_i val heq2
          cases val
          rw [ih]
          constructor
          · intro h q hq
            rcases List.mem_cons.mp hq with hq | hq
            · subst hq
              exact ⟨cbeh, hlk,
                (validate_behavior_methods_ok_iff c.name c.source_position
                  c.methods cbeh.name cbeh.methods).mp heq2⟩
            · exact h q hq
          · intro h q hq
            exact h q (List.mem_cons_of_mem _ hq)

/-- C8 counterexample: for class Foo, method baz, behavior Bar the
missing-method message is not the claimed backtick-free string (the code
wraps the three names in backticks). -/
theorem c8_counterexample :
    validate_class_implements c8_foo c8_behs = Except.error
      ⟨"Invalid behavior implementation on `Foo`, method `baz` defined in behavior `Bar` not found in class",
        some c8_pos⟩ ∧
    "Invalid behavior implementation on `Foo`, method `baz` defined in behavior `Bar` not found in class" ≠
      "Invalid behavior implementation on Foo, method baz defined in behavior Bar not found in class" :=
  ⟨rfl, by decide⟩

/-- C8 (amended): during symbol-table population, for every class C and
behavior name B in its implements list, a missing behavior, a method of B
missing from C, or a differing shared definition fails with a ParseError
at C's source position; in the missing-method case for class Foo, method
baz, behavior Bar the message is "Invalid behavior implementation on
`Foo`, method `baz` defined in behavior `Bar` not found in class" (with
backticks around the names); validation succeeds exactly when no such
violation exists, and populate_classes propagates the error. -/
theorem c8_behavior_validation :
    (validate_class_implements c8_foo c8_behs = Except.error
      ⟨"Invalid behavior implementation on `Foo`, method `baz` defined in behavior `Bar` not found in class",
        some c8_pos⟩) ∧
    (∀ (c : PTClassDefinition) (beh_defs : HMap String BehaviorDefinition)
        (e : ParseError),
      validate_class_implements c beh_defs = Except.error e →
      e.pos = some c.source_position) ∧
    (∀ (c : PTClassDefinition) (beh_defs : HMap String BehaviorDefinition),
      validate_class_implements c beh_defs = Except.ok () ↔
        ∀ i ∈ c.implements, ∃ bd, alookup beh_defs i = some bd ∧
          ∀ p ∈ bd.methods, alookup c.methods p.1 = some p.2) ∧
    (∀ (fuel : Nat) (pt : ParseTable) (st : SymbolTable) (cname : String)
        (c : PTClassDefinition) (rest : List (String × PTClassDefinition))
        (e : ParseError),
      pt.classes = (cname, c) :: rest →
      validate_class_implements c pt.behaviors = Except.error e →
      populate_classes fuel pt st = Outcome.err e) := by
  refine ⟨rfl, ?_, ?_, ?_⟩
  · intro c beh_defs e h
    exact validate_class_implements_each_err_pos c beh_defs c.implements e h
  · intro c beh_defs
    exact validate_class_implements_each_ok_iff c beh_defs c.implements
  · intro fuel pt st cname c rest e hcls hval
    unfold populate_classes
    rw [hcls]
    unfold populate_classes_each
    rw [hval]

/-- C8 witness: population of the Foo/Bar table fails with the exact message. -/
theorem c8_witness :
    populate_classes 1 c8_pt SymbolTable.new = Outcome.err
      ⟨"Invalid behavior implementation on `Foo`, method `baz` defined in behavior `Bar` not found in class",
        some c8_pos⟩ :=
  c8_behavior_validation.2.2.2 1 c8_pt SymbolTable.new "Foo" c8_foo [] _ rfl
    c8_behavior_validation.1

/-- C4 (amended): parsing the token sequence for `(1 + 1 + 2 * 3 - 1);`
produces a single expression statement whose tree is
1 + (1 + ((2 * 3) - 1)): the additions nest to the RIGHT, with 2 * 3
grouped before being combined with the subtraction of 1 — exactly the
shape the repository's own test asserts. -/
theorem c4_binop_tree :
    start_parse 100 c4_tokens = POut.ok c4_ast ⟨c4_tokens, 12⟩ ∧
    c4_ast.firstExpr = some c4_right :=
  ⟨rfl, rfl⟩

/-- C4 counterexample: the parse result is not the claimed left-associated
tree ((1 + 1) + ((2 * 3) - 1)). -/
theorem c4_counterexample :
    start_parse 100 c4_tokens = POut.ok c4_ast ⟨c4_tokens, 12⟩ ∧
    c4_ast.firstExpr = some c4_right ∧ c4_right ≠ c4_claimed :=
  ⟨rfl, rfl, fun h => absurd (congrArg Expression.fmt h) (by decide)⟩

/-- C6 (amended): parsing the token sequence for `new List<int>()`
produces a NewInstance expression whose class identifier is \"List\" with
an empty CallableArgs argument expression, and whose type-argument list is
[Type::Int] — the primitive int type, since the `int` keyword lexes to the
TypeInteger token which parse_type_declaration maps to SahaType::Int. -/
theorem c6_new_instance_tree :
    start_parse 100 c6_tokens = POut.ok c6_ast ⟨c6_tokens, 7⟩ ∧
    c6_ast.firstExpr = some c6_expected :=
  ⟨rfl, rfl⟩

/-- C6 counterexample: the type-argument list of the parsed NewInstance is
not [Type::Name(\"int\", [])]. -/
theorem c6_counterexample :
    start_parse 100 c6_tokens = POut.ok c6_ast ⟨c6_tokens, 7⟩ ∧
    c6_ast.firstExpr = some c6_expected ∧ c6_expected ≠ c6_claimed :=
  ⟨rfl, rfl, fun h => absurd (congrArg Expression.fmt h) (by decide)⟩

/-- The list-literal element loop parses at least one element before it
ever checks for a closing bracket, so a successful run returns a
non-empty list. -/
theorem parse_list_items_ne_nil :
    ∀ (fuel : Nat) (st : ParserState) (lst : List Expression) (st' : ParserState),
      parse_list_items fuel st = POut.ok lst st' → lst ≠ [] := by
  intro fuel st lst st' h
  match fuel with
  | 0 => exact absurd h (by simp [parse_list_items])
  | Nat.succ f =>
    unfold parse_list_items at h
    cases hpe : parse_expression f 0 st with
    | err e2 => rw [hpe] at h; dsimp only [POut.bind] at h; cases h
    | panic m => rw [hpe] at h; dsimp only [POut.bind] at h; cases h
    | fuelOut => rw [hpe] at h; dsimp only [POut.bind] at h; cases h
    | ok e st1 =>
      rw [hpe] at h
      dsimp only [POut.bind] at h
      cases hnt : st1.ntok with
      | none => rw [hnt] at h; cases h
      | some t =>
        rw [hnt] at h
        cases t <;> dsimp only at h <;>
          first
          | (cases h; simp)
          | (cases hr : parse_list_items f st1 with
             | ok rest st2 =>
               rw [hr] at h; dsimp only [POut.bind] at h; cases h; simp
             | err e2 => rw [hr] at h; dsimp only [POut.bind] at h; cases h
             | panic m => rw [hr] at h; dsimp only [POut.bind] at h; cases h
             | fuelOut => rw [hr] at h; dsimp only [POut.bind] at h; cases h)
          | (cases hc : consume_next st1 [","] with
             | ok tk st2 =>
               rw [hc] at h
               dsimp only [POut.bind] at h
               cases hr : parse_list_items f st2 with
               | ok rest st3 =>
                 rw [hr] at h; dsimp only [POut.bind] at h; cases h; simp
               | err e2 => rw [hr] at h; dsimp only [POut.bind] at h; cases h
               | panic m => rw [hr] at h; dsimp only [POut.bind] at h; cases h
               | fuelOut => rw [hr] at h; dsimp only [POut.bind] at h; cases h
             | err e2 => rw [hc] at h; dsimp only [POut.bind] at h; cases h
             | panic m => rw [hc] at h; dsimp only [POut.bind] at h; cases h
             | fuelOut => rw [hc] at h; dsimp only [POut.bind] at h; cases h)

/-- C10: parsing an empty list literal (a `[` token immediately followed
by `]`) fails with a ParseError, and every ListDeclaration produced by a
successful run of the list-literal parser has at least one element. -/
theorem c10_list_literals_nonempty :
    (∃ e, start_parse 100 [Token.braceOpen up, Token.braceClose up, Token.eob] =
      POut.err e) ∧
    (∀ (fuel : Nat) (st : ParserState) (e : Expression) (st' : ParserState),
      parse_list_creation_shorthand fuel st = POut.ok e st' →
      ∃ elems, e.kind = ExpressionKind.listDeclaration elems ∧ elems ≠ []) := by
  constructor
  · exact ⟨_, rfl⟩
  · intro fuel st e st' h
    match fuel with
    | 0 => exact absurd h (by simp [parse_list_creation_shorthand])
    | Nat.succ f =>
      unfold parse_list_creation_shorthand at h
      cases hct : st.ctok with
      | none => rw [hct] at h; cases h
      | some c =>
        rw [hct] at h
        dsimp only at h
        cases hli : parse_list_items f st with
        | err e2 => rw [hli] at h; dsimp only [POut.bind] at h; cases h
        | panic m => rw [hli] at h; dsimp only [POut.bind] at h; cases h
        | fuelOut => rw [hli] at h; dsimp only [POut.bind] at h; cases h
        | ok lst st1 =>
          rw [hli] at h
          dsimp only [POut.bind] at h
          cases hcn : consume_next st1 ["]"] with
          | ok tk st2 =>
            rw [hcn] at h
            dsimp only [POut.bind] at h
            cases h
            exact ⟨lst, rfl, parse_list_items_ne_nil f st lst st1 hli⟩
          | err e2 => rw [hcn] at h; dsimp only [POut.bind] at h; cases h
          | panic m => rw [hcn] at h; dsimp only [POut.bind] at h; cases h
          | fuelOut => rw [hcn] at h; dsimp only [POut.bind] at h; cases h

/-- C10 witness: a concrete [1] literal parses to a non-empty list. -/
theorem c10_witness :
    ∃ elems,
      (Expression.mk up (.listDeclaration [intLit 1])).kind =
        ExpressionKind.listDeclaration elems ∧ elems ≠ [] :=
  c10_list_literals_nonempty.2 50 ⟨c10w_tokens, 1⟩
    (Expression.mk up (.listDeclaration [intLit 1])) ⟨c10w_tokens, 3⟩ rfl
